import Mathlib

/-!
Verification development for the performance-testing repository
(log-mining pipeline: log_traffic_extractor.py, pplmag_extractor.py,
log_distiller.py, merge_traffic.py; replay engine: api_flow_v2.py).

The Python sources are shallowly embedded as executable Lean functions.
Machine floats (request latencies) are modelled as exact rationals;
Python dict/JSON values are modelled by the inductive `JVal`;
randomness, wall-clock time and the HTTP transport are supplied by an
explicit environment, mirroring the spec's "send request, get
(status, body, latency)" boundary.  All other logic (regex searches,
base64 decoding, JSON parsing, timestamp parsing, the two-pass
sequence builder, the merger, the four-step session flow and the wave
scheduler) is translated from the source files.
-/

set_option maxRecDepth 4096

/-- Model of a Python/JSON value (the dynamic values flowing through the
scripts: parsed JSON payloads, dict entries, regex capture results).
Numbers are modelled as exact rationals (CPython floats/ints are collapsed;
none of the verified properties depends on float rounding). -/
inductive JVal where
  | null : JVal
  | bool (b : Bool) : JVal
  | num (q : ℚ) : JVal
  | str (s : String) : JVal
  | arr (xs : List JVal) : JVal
  | obj (kvs : List (String × JVal)) : JVal

instance : Inhabited JVal := ⟨.null⟩

mutual

/-- Structural equality of modelled values (Python `==` on parsed JSON
data; `int`/`float` are collapsed into `ℚ` so `1 == 1.0` holds). -/
def JVal.beq : JVal → JVal → Bool
  | .null, .null => true
  | .bool a, .bool b => a == b
  | .num a, .num b => a == b
  | .str a, .str b => a == b
  | .arr xs, .arr ys => JVal.beqL xs ys
  | .obj xs, .obj ys => JVal.beqKV xs ys
  | _, _ => false

/-- Elementwise equality of value lists. -/
def JVal.beqL : List JVal → List JVal → Bool
  | [], [] => true
  | x :: xs, y :: ys => JVal.beq x y && JVal.beqL xs ys
  | _, _ => false

/-- Elementwise equality of key/value lists. -/
def JVal.beqKV : List (String × JVal) → List (String × JVal) → Bool
  | [], [] => true
  | (k, v) :: xs, (l, w) :: ys => k == l && JVal.beq v w && JVal.beqKV xs ys
  | _, _ => false

end

theorem JVal.beqL_iff (xs ys : List JVal)
    (h : ∀ x ∈ xs, ∀ b, (JVal.beq x b = true) ↔ x = b) :
    (JVal.beqL xs ys = true) ↔ xs = ys := by
  induction xs generalizing ys with
  | nil => cases ys <;> simp [JVal.beqL]
  | cons x xs ih =>
    cases ys with
    | nil => simp [JVal.beqL]
    | cons y ys =>
      simp only [JVal.beqL, Bool.and_eq_true, List.cons.injEq]
      rw [h x (by simp) y, ih ys (fun a ha b => h a (by simp [ha]) b)]

theorem JVal.beqKV_iff (xs ys : List (String × JVal))
    (h : ∀ kv ∈ xs, ∀ b, (JVal.beq kv.2 b = true) ↔ kv.2 = b) :
    (JVal.beqKV xs ys = true) ↔ xs = ys := by
  induction xs generalizing ys with
  | nil => cases ys <;> simp [JVal.beqKV]
  | cons x xs ih =>
    cases ys with
    | nil => simp [JVal.beqKV]
    | cons y ys =>
      obtain ⟨k, v⟩ := x
      obtain ⟨l, w⟩ := y
      simp only [JVal.beqKV, Bool.and_eq_true, List.cons.injEq, Prod.mk.injEq,
        beq_iff_eq]
      rw [h (k, v) (by simp) w, ih ys (fun a ha b => h a (by simp [ha]) b)]

theorem JVal.beq_iff : ∀ (a b : JVal), (JVal.beq a b = true) ↔ a = b
  | .null, b => by cases b <;> simp [JVal.beq]
  | .bool a, b => by cases b <;> simp [JVal.beq]
  | .num a, b => by cases b <;> simp [JVal.beq]
  | .str a, b => by cases b <;> simp [JVal.beq]
  | .arr xs, b => by
    cases b <;> simp only [JVal.beq, Bool.false_eq_true, false_iff] <;>
      try exact fun h => JVal.noConfusion h
    case arr ys =>
      rw [JVal.beqL_iff xs ys (fun x hx b => JVal.beq_iff x b)]
      exact ⟨fun h => by rw [h], fun h => by injection h⟩
  | .obj xs, b => by
    cases b <;> simp only [JVal.beq, Bool.false_eq_true, false_iff] <;>
      try exact fun h => JVal.noConfusion h
    case obj ys =>
      rw [JVal.beqKV_iff xs ys (fun kv hkv b => JVal.beq_iff kv.2 b)]
      exact ⟨fun h => by rw [h], fun h => by injection h⟩
termination_by a => sizeOf a
decreasing_by
  · have h1 := List.sizeOf_lt_of_mem hx
    simp only [JVal.arr.sizeOf_spec]
    omega
  · have h1 := List.sizeOf_lt_of_mem hkv
    have h2 : sizeOf kv.2 < sizeOf kv := by
      obtain ⟨k, v⟩ := kv
      simp only [Prod.mk.sizeOf_spec]
      omega
    simp only [JVal.obj.sizeOf_spec]
    omega

instance : BEq JVal := ⟨JVal.beq⟩

instance : DecidableEq JVal :=
  fun a b => decidable_of_iff _ (JVal.beq_iff a b)

instance : LawfulBEq JVal where
  eq_of_beq h := (JVal.beq_iff _ _).mp h
  rfl := (JVal.beq_iff _ _).mpr rfl

/-- Python truthiness (`if x:`) for the modelled values:
None, False, 0, "", [], {} are falsy, everything else truthy. -/
def JVal.truthy : JVal → Bool
  | .null => false
  | .bool b => b
  | .num q => q != 0
  | .str s => s != ""
  | .arr xs => !xs.isEmpty
  | .obj kvs => !kvs.isEmpty

/-- Model of Python `d.get(k)` on a parsed JSON object: the value of the
last occurrence of the key (CPython keeps the last duplicate), `null`
(Python None) when the key is absent. -/
def JVal.objGet (kvs : List (String × JVal)) (k : String) : JVal :=
  match kvs.reverse.find? (fun kv => kv.1 == k) with
  | some kv => kv.2
  | none => .null

/-- Whether a parsed JSON object has the key (Python `k in d`). -/
def JVal.objHasKey (kvs : List (String × JVal)) (k : String) : Bool :=
  kvs.any (fun kv => kv.1 == k)

/-- Python `x != 0` for a value read out of a response dict: only the
number 0 (int or float) and False compare equal to 0. -/
def JVal.eqZero : JVal → Bool
  | .num q => q == 0
  | .bool b => !b
  | _ => false

/-! ### Character classes (ASCII scope of the Python regex/str model) -/

/-- ASCII whitespace, the scope in which Python regex `\s` and `str.strip`
are modelled here. -/
def isPySpace (c : Char) : Bool :=
  c == ' ' || c == '\t' || c == '\n' || c == '\r' || c == '\x0b' || c == '\x0c'

/-- ASCII word character (Python regex `\w` / the `\b` boundary test). -/
def isWordChar (c : Char) : Bool :=
  c.isAlphanum || c == '_'

/-- JSON whitespace accepted by `json.loads` between tokens. -/
def isJsonWs (c : Char) : Bool :=
  c == ' ' || c == '\t' || c == '\n' || c == '\r'

def jskipWs (cs : List Char) : List Char := cs.dropWhile isJsonWs

/-! ### JSON parsing (model of `json.loads`)

A strict recursive-descent parser for the JSON grammar used by CPython's
`json.loads` (default flags): strings with escapes, numbers per the
`(-?(?:0|[1-9]\d*))(\.\d+)?([eE][-+]?\d+)?` regex, objects keeping the
last duplicate key, arrays, `true`/`false`/`null`.  `NaN`/`Infinity`
literals and lone surrogates (which CPython tolerates) have no exact
image here: the former fail to parse and the latter decode to U+FFFD;
no verified property depends on them.  `none` models a raised
`json.JSONDecodeError` (a `ValueError` subclass). -/

def hexVal (c : Char) : Option Nat :=
  if '0' ≤ c && c ≤ '9' then some (c.toNat - 48)
  else if 'a' ≤ c && c ≤ 'f' then some (c.toNat - 97 + 10)
  else if 'A' ≤ c && c ≤ 'F' then some (c.toNat - 65 + 10)
  else none

/-- Parse the rest of a JSON string literal (opening quote consumed):
returns the decoded characters and the input remaining after the
closing quote. -/
def parseJStrAux : Nat → List Char → Option (List Char × List Char)
  | 0, _ => none
  | _, [] => none
  | fuel + 1, c :: rest =>
    if c == '"' then some ([], rest)
    else if c == '\\' then
      match rest with
      | [] => none
      | e :: rest2 =>
        if e == 'u' then
          match rest2 with
          | h1 :: h2 :: h3 :: h4 :: rest3 =>
            match hexVal h1, hexVal h2, hexVal h3, hexVal h4 with
            | some a, some b, some c2, some d =>
              let n := ((a * 16 + b) * 16 + c2) * 16 + d
              if 0xD800 ≤ n && n ≤ 0xDBFF then
                match rest3 with
                | '\\' :: 'u' :: g1 :: g2 :: g3 :: g4 :: rest4 =>
                  match hexVal g1, hexVal g2, hexVal g3, hexVal g4 with
                  | some a2, some b2, some c3, some d2 =>
                    let m := ((a2 * 16 + b2) * 16 + c3) * 16 + d2
                    if 0xDC00 ≤ m && m ≤ 0xDFFF then
                      (parseJStrAux fuel rest4).map
                        (fun p => (Char.ofNat (0x10000 + (n - 0xD800) * 0x400 + (m - 0xDC00)) :: p.1, p.2))
                    else
                      (parseJStrAux fuel rest3).map (fun p => ('�' :: p.1, p.2))
                  | _, _, _, _ =>
                    (parseJStrAux fuel rest3).map (fun p => ('�' :: p.1, p.2))
                | _ =>
                  (parseJStrAux fuel rest3).map (fun p => ('�' :: p.1, p.2))
              else if 0xDC00 ≤ n && n ≤ 0xDFFF then
                (parseJStrAux fuel rest3).map (fun p => ('�' :: p.1, p.2))
              else
                (parseJStrAux fuel rest3).map (fun p => (Char.ofNat n :: p.1, p.2))
            | _, _, _, _ => none
          | _ => none
        else
          let esc : Option Char :=
            if e == '"' then some '"'
            else if e == '\\' then some '\\'
            else if e == '/' then some '/'
            else if e == 'b' then some '\x08'
            else if e == 'f' then some '\x0c'
            else if e == 'n' then some '\n'
            else if e == 'r' then some '\r'
            else if e == 't' then some '\t'
            else none
          match esc with
          | some ch => (parseJStrAux fuel rest2).map (fun p => (ch :: p.1, p.2))
          | none => none
    else if c.toNat < 0x20 then none
    else (parseJStrAux fuel rest).map (fun p => (c :: p.1, p.2))

def digitsToNat (ds : List Char) : Nat :=
  ds.foldl (fun n c => n * 10 + (c.toNat - 48)) 0

/-- Parse a JSON number at the head of the input, per CPython's
`NUMBER_RE`; mirrors the regex exactly, so e.g. `0123` parses as `0`
leaving `123` for the surrounding context to reject. -/
def parseJNum (cs : List Char) : Option (ℚ × List Char) :=
  let p := match cs with
    | '-' :: r => (true, r)
    | _ => (false, cs)
  match p.2 with
  | [] => none
  | c :: _ =>
    if !(c.isDigit) then none
    else
      let ip := if c == '0' then ['0'] else p.2.takeWhile Char.isDigit
      let rest1 := p.2.drop ip.length
      let fr : ℚ × List Char :=
        match rest1 with
        | '.' :: r2 =>
          let fd := r2.takeWhile Char.isDigit
          if fd.isEmpty then ((digitsToNat ip : ℚ), rest1)
          else ((digitsToNat ip : ℚ) + (digitsToNat fd : ℚ) / ((10 : ℚ) ^ fd.length), r2.drop fd.length)
        | _ => ((digitsToNat ip : ℚ), rest1)
      let ex : ℚ × List Char :=
        match fr.2 with
        | e :: r3 =>
          if e == 'e' || e == 'E' then
            let q := match r3 with
              | '+' :: r4 => (1, r4)
              | '-' :: r4 => (-1, r4)
              | _ => ((1 : Int), r3)
            let ed := q.2.takeWhile Char.isDigit
            if ed.isEmpty then (fr.1, fr.2)
            else (fr.1 * (10 : ℚ) ^ (q.1 * (digitsToNat ed : Int)), q.2.drop ed.length)
          else (fr.1, fr.2)
        | _ => (fr.1, fr.2)
      some (if p.1 then -ex.1 else ex.1, ex.2)

mutual

/-- Parse one JSON value (leading whitespace allowed); returns the value
and the remaining input. -/
def parseJVal : Nat → List Char → Option (JVal × List Char)
  | 0, _ => none
  | fuel + 1, cs =>
    match jskipWs cs with
    | [] => none
    | '{' :: r =>
      (match jskipWs r with
       | '}' :: r2 => some (.obj [], r2)
       | r1 => parseJMembers fuel r1 [])
    | '[' :: r =>
      (match jskipWs r with
       | ']' :: r2 => some (.arr [], r2)
       | r1 => parseJItems fuel r1 [])
    | '"' :: r => (parseJStrAux (fuel + 1) r).map (fun p => (.str (String.mk p.1), p.2))
    | 't' :: 'r' :: 'u' :: 'e' :: r => some (.bool true, r)
    | 'f' :: 'a' :: 'l' :: 's' :: 'e' :: r => some (.bool false, r)
    | 'n' :: 'u' :: 'l' :: 'l' :: r => some (.null, r)
    | cs1 => (parseJNum cs1).map (fun p => (.num p.1, p.2))

/-- Parse the members of a JSON object, positioned at a property name. -/
def parseJMembers : Nat → List Char → List (String × JVal) → Option (JVal × List Char)
  | 0, _, _ => none
  | fuel + 1, cs, acc =>
    match cs with
    | '"' :: r =>
      match parseJStrAux (fuel + 1) r with
      | none => none
      | some (key, r2) =>
        match jskipWs r2 with
        | ':' :: r3 =>
          match parseJVal fuel r3 with
          | none => none
          | some (v, r4) =>
            let acc2 := acc ++ [(String.mk key, v)]
            match jskipWs r4 with
            | ',' :: r5 => parseJMembers fuel (jskipWs r5) acc2
            | '}' :: r5 => some (.obj acc2, r5)
            | _ => none
        | _ => none
    | _ => none

/-- Parse the items of a JSON array, positioned at a value. -/
def parseJItems : Nat → List Char → List JVal → Option (JVal × List Char)
  | 0, _, _ => none
  | fuel + 1, cs, acc =>
    match parseJVal fuel cs with
    | none => none
    | some (v, r) =>
      let acc2 := acc ++ [v]
      match jskipWs r with
      | ',' :: r2 => parseJItems fuel r2 acc2
      | ']' :: r2 => some (.arr acc2, r2)
      | _ => none

end

/-- Model of `json.loads`: parse one value, allow surrounding whitespace,
reject trailing data; `none` models a raised `JSONDecodeError`. -/
def json_loads (s : String) : Option JVal :=
  match parseJVal (2 * s.length + 8) s.data with
  | some (v, rest) => if (jskipWs rest).isEmpty then some v else none
  | none => none

/-! ### base64 (model of `base64.b64decode` / `urlsafe_b64decode`)

CPython's default (`validate=False`) decoder: characters outside the
alphabet are discarded; `=` with fewer than two pending data characters
is ignored; `=` after two pending characters requires a second `=` and
then decoding stops; `=` after three pending characters stops
immediately; input ending with 1 pending character (mod 4) or with 2-3
pending characters and no padding raises `binascii.Error` (a
`ValueError` subclass), modelled by `none`. -/

def b64CharVal (c : Char) : Option Nat :=
  if 'A' ≤ c && c ≤ 'Z' then some (c.toNat - 65)
  else if 'a' ≤ c && c ≤ 'z' then some (c.toNat - 97 + 26)
  else if '0' ≤ c && c ≤ '9' then some (c.toNat - 48 + 52)
  else if c == '+' then some 62
  else if c == '/' then some 63
  else none

/-- Emit the bytes of a (possibly final partial) base64 group. -/
def b64Group : List Nat → List Nat
  | [a, b, c, d] => [a * 4 + b / 16, (b % 16) * 16 + c / 4, (c % 4) * 64 + d]
  | [a, b, c] => [a * 4 + b / 16, (b % 16) * 16 + c / 4]
  | [a, b] => [a * 4 + b / 16]
  | _ => []

def b64DecAux : List Char → List Nat → Option (List Nat)
  | [], g =>
    if g.isEmpty then some [] else none
  | c :: rest, g =>
    if c == '=' then
      if g.length ≤ 1 then b64DecAux rest g
      else if g.length == 2 then
        match rest.dropWhile (fun d => (b64CharVal d).isNone && d != '=') with
        | '=' :: _ => some (b64Group g)
        | _ => none
      else some (b64Group g)
    else
      match b64CharVal c with
      | none => b64DecAux rest g
      | some v =>
        if g.length == 3 then (b64DecAux rest []).map (fun bs => b64Group (g ++ [v]) ++ bs)
        else b64DecAux rest (g ++ [v])

/-- Model of `base64.b64decode` (lenient mode); `none` models a raised
`binascii.Error`. -/
def b64decode (s : String) : Option (List Nat) :=
  b64DecAux s.data []

/-- Model of `base64.urlsafe_b64decode`. -/
def urlsafe_b64decode (s : String) : Option (List Nat) :=
  b64decode (String.mk (s.data.map (fun c => if c == '-' then '+' else if c == '_' then '/' else c)))

/-! ### UTF-8 decoding (model of `bytes.decode("utf-8")`) -/

/-- Strict UTF-8 decoding with full validation (continuation ranges,
no overlong forms, no surrogates); `none` models a raised
`UnicodeDecodeError` (a `ValueError` subclass). -/
def utf8DecodeStrictAux : List Nat → Option (List Char)
  | [] => some []
  | b :: rest =>
    if b ≤ 0x7F then (utf8DecodeStrictAux rest).map (Char.ofNat b :: ·)
    else if 0xC2 ≤ b && b ≤ 0xDF then
      match rest with
      | b2 :: r2 =>
        if 0x80 ≤ b2 && b2 ≤ 0xBF then
          (utf8DecodeStrictAux r2).map (Char.ofNat ((b - 0xC0) * 64 + (b2 - 0x80)) :: ·)
        else none
      | [] => none
    else if 0xE0 ≤ b && b ≤ 0xEF then
      match rest with
      | b2 :: b3 :: r2 =>
        let lo2 := if b == 0xE0 then 0xA0 else 0x80
        let hi2 := if b == 0xED then 0x9F else 0xBF
        if lo2 ≤ b2 && b2 ≤ hi2 && 0x80 ≤ b3 && b3 ≤ 0xBF then
          (utf8DecodeStrictAux r2).map
            (Char.ofNat ((b - 0xE0) * 4096 + (b2 - 0x80) * 64 + (b3 - 0x80)) :: ·)
        else none
      | _ => none
    else if 0xF0 ≤ b && b ≤ 0xF4 then
      match rest with
      | b2 :: b3 :: b4 :: r2 =>
        let lo2 := if b == 0xF0 then 0x90 else 0x80
        let hi2 := if b == 0xF4 then 0x8F else 0xBF
        if lo2 ≤ b2 && b2 ≤ hi2 && 0x80 ≤ b3 && b3 ≤ 0xBF && 0x80 ≤ b4 && b4 ≤ 0xBF then
          (utf8DecodeStrictAux r2).map
            (Char.ofNat ((b - 0xF0) * 0x40000 + (b2 - 0x80) * 4096 + (b3 - 0x80) * 64 + (b4 - 0x80)) :: ·)
        else none
      | _ => none
    else none

/-- Model of `bytes.decode("utf-8")` (strict). -/
def utf8DecodeStrict (bs : List Nat) : Option String :=
  (utf8DecodeStrictAux bs).map String.mk

/-- Model of `bytes.decode("utf-8", errors="ignore")`: ill-formed bytes
are skipped instead of failing (fuel-based recursion; the fuel of
`utf8DecodeIgnore` always suffices since every step consumes a byte). -/
def utf8DecodeIgnoreAux : Nat → List Nat → List Char
  | 0, _ => []
  | _, [] => []
  | fuel + 1, b :: rest =>
    if b ≤ 0x7F then Char.ofNat b :: utf8DecodeIgnoreAux fuel rest
    else if 0xC2 ≤ b && b ≤ 0xDF then
      match rest with
      | b2 :: r2 =>
        if 0x80 ≤ b2 && b2 ≤ 0xBF then
          Char.ofNat ((b - 0xC0) * 64 + (b2 - 0x80)) :: utf8DecodeIgnoreAux fuel r2
        else utf8DecodeIgnoreAux fuel rest
      | [] => []
    else if 0xE0 ≤ b && b ≤ 0xEF then
      match rest with
      | b2 :: b3 :: r2 =>
        let lo2 := if b == 0xE0 then 0xA0 else 0x80
        let hi2 := if b == 0xED then 0x9F else 0xBF
        if lo2 ≤ b2 && b2 ≤ hi2 && 0x80 ≤ b3 && b3 ≤ 0xBF then
          Char.ofNat ((b - 0xE0) * 4096 + (b2 - 0x80) * 64 + (b3 - 0x80)) :: utf8DecodeIgnoreAux fuel r2
        else utf8DecodeIgnoreAux fuel rest
      | _ => utf8DecodeIgnoreAux fuel rest
    else if 0xF0 ≤ b && b ≤ 0xF4 then
      match rest with
      | b2 :: b3 :: b4 :: r2 =>
        let lo2 := if b == 0xF0 then 0x90 else 0x80
        let hi2 := if b == 0xF4 then 0x8F else 0xBF
        if lo2 ≤ b2 && b2 ≤ hi2 && 0x80 ≤ b3 && b3 ≤ 0xBF && 0x80 ≤ b4 && b4 ≤ 0xBF then
          Char.ofNat ((b - 0xF0) * 0x40000 + (b2 - 0x80) * 4096 + (b3 - 0x80) * 64 + (b4 - 0x80)) :: utf8DecodeIgnoreAux fuel r2
        else utf8DecodeIgnoreAux fuel rest
      | _ => utf8DecodeIgnoreAux fuel rest
    else utf8DecodeIgnoreAux fuel rest

/-- Model of `bytes.decode("utf-8", errors="ignore")`. -/
def utf8DecodeIgnore (bs : List Nat) : String :=
  String.mk (utf8DecodeIgnoreAux (bs.length + 1) bs)

/-! ### Regex search scanners

Hand-rolled deterministic equivalents of the specific `re` patterns used
by the extractors, with Python leftmost-match semantics: try a match at
each successive start position.  Character classes are modelled at ASCII
scope (the log corpora are ASCII). -/

/-- Search for `"KEY":\s*"([^"]+)"` (the quoted-field patterns
`USER_ID_PATTERN`, `LOAD_TOKEN_PATTERN` and the `"uid"` lookup inside
`decode_load_token_uid`): returns the capture of the first position
where the whole pattern matches. -/
def searchQuotedAux (pat : List Char) : List Char → Option String
  | [] => none
  | c :: rest =>
    let here : Option String :=
      if pat.isPrefixOf (c :: rest) then
        match ((c :: rest).drop pat.length).dropWhile isPySpace with
        | '"' :: body =>
          let content := body.takeWhile (fun d => d != '"')
          if content.isEmpty then none
          else if (body.drop content.length).isEmpty then none
          else some (String.mk content)
        | _ => none
      else none
    match here with
    | some r => some r
    | none => searchQuotedAux pat rest

def searchQuotedField (key : String) (line : String) : Option String :=
  searchQuotedAux ('"' :: (key.data ++ ['"', ':'])) line.data

/-- Search for `\bKEY:\s*(\S+)` (the query-parameter patterns
`UID_PATTERN` / `UID_PARAM_PATTERN` / `USER_ID_PARAM_PATTERN`): a word
boundary, the literal key and colon, optional whitespace, then a
maximal nonempty run of non-whitespace. -/
def searchParamAux (pat : List Char) (prevWord : Bool) : List Char → Option String
  | [] => none
  | c :: rest =>
    let here : Option String :=
      if !prevWord && pat.isPrefixOf (c :: rest) then
        let tok := (((c :: rest).drop pat.length).dropWhile isPySpace).takeWhile
          (fun d => !(isPySpace d))
        if tok.isEmpty then none else some (String.mk tok)
      else none
    match here with
    | some r => some r
    | none => searchParamAux pat (isWordChar c) rest

def searchParamToken (key : String) (line : String) : Option String :=
  searchParamAux (key.data ++ [':']) false line.data

/-- Search for `LABEL\s*(\{[^}]+(?:\{[^}]*\}[^}]*)*\})` (the
`payloadJson:`/`postScoreJson:`/`pickerStatusJson:` patterns).  Under
leftmost/greedy backtracking this pattern always matches from a `{`
through the first following `}` with at least one character between
them (the inner group can never consume anything before the final `}`
succeeds), which is what this scanner implements. -/
def searchBraceAux (pat : List Char) : List Char → Option String
  | [] => none
  | c :: rest =>
    let here : Option String :=
      if pat.isPrefixOf (c :: rest) then
        match ((c :: rest).drop pat.length).dropWhile isPySpace with
        | '{' :: body =>
          let inner := body.takeWhile (fun d => d != '}')
          if inner.isEmpty then none
          else if (body.drop inner.length).isEmpty then none
          else some (String.mk ('{' :: (inner ++ ['}'])))
        | _ => none
      else none
    match here with
    | some r => some r
    | none => searchBraceAux pat rest

def searchPayloadBlock (label : String) (line : String) : Option String :=
  searchBraceAux label.data line.data

/-! ### Timestamp parsing (the TimestampCodec)

Model of `datetime.strptime(f"2025 {ts_str}", "%Y %d %b %H:%M:%S.%f")`
followed by `int(dt.timestamp() * 1000)`:

* `%Y` always consumes exactly the prepended `2025` (the following
  whitespace run absorbs the separating blank plus any leading
  whitespace of `ts_str`), so the model works on `ts_str` directly;
* each numeric directive uses exactly CPython's ordered alternations
  (`%d` = `3[01]|[12]\d|0[1-9]|[1-9]`, `%H` = `2[0-3]|[0-1]\d|\d`,
  `%M` = `[0-5]\d|\d`, `%S` = `6[01]|[0-5]\d|\d`, `%f` = 1-6 digits);
* trailing unconverted data, day out of range for the month, and
  seconds 60/61 (rejected by the `datetime` constructor) all fail;
* `dt.timestamp()` is computed for UTC (the value, though not the
  success/failure outcome verified here, shifts with the host
  timezone), and the `int(... * 1000)` truncation is computed exactly
  (microseconds divided by 1000) rather than through a float. -/

/-- Parse a 1-2 digit numeric directive: a two-digit form must satisfy
`valid2` (on its tens digit and value), a one-digit fallback must
satisfy `valid1`. -/
def takeDigit2 (valid2 : Nat → Nat → Bool) (valid1 : Nat → Bool) :
    List Char → Option (Nat × List Char)
  | c1 :: c2 :: rest =>
    if c1.isDigit && c2.isDigit then
      let a := c1.toNat - 48
      let v := a * 10 + (c2.toNat - 48)
      if valid2 a v then some (v, rest) else none
    else if c1.isDigit && valid1 (c1.toNat - 48) then some (c1.toNat - 48, c2 :: rest)
    else none
  | [c1] => if c1.isDigit && valid1 (c1.toNat - 48) then some (c1.toNat - 48, []) else none
  | [] => none

/-- Require at least one whitespace character and skip the whole run
(the `\s+` compiled from whitespace in a strptime format). -/
def reqWs (cs : List Char) : Option (List Char) :=
  match cs with
  | c :: _ => if isPySpace c then some (cs.dropWhile isPySpace) else none
  | [] => none

def reqChar (ch : Char) (cs : List Char) : Option (List Char) :=
  match cs with
  | c :: rest => if c == ch then some rest else none
  | [] => none

/-- The case-insensitive `%b` month-abbreviation alternation. -/
def monthFromAbbr (cs : List Char) : Option (Nat × List Char) :=
  let pre := (cs.take 3).map Char.toLower
  let tbl : List (List Char × Nat) :=
    [("jan".data, 1), ("feb".data, 2), ("mar".data, 3), ("apr".data, 4),
     ("may".data, 5), ("jun".data, 6), ("jul".data, 7), ("aug".data, 8),
     ("sep".data, 9), ("oct".data, 10), ("nov".data, 11), ("dec".data, 12)]
  match tbl.find? (fun p => p.1 == pre) with
  | some p => some (p.2, cs.drop 3)
  | none => none

/-- Days in each month of 2025 (not a leap year). -/
def daysInMonth2025 (m : Nat) : Nat :=
  [31, 28, 31, 30, 31, 30, 31, 31, 30, 31, 30, 31].getD (m - 1) 0

/-- Cumulative day offset of each month of 2025. -/
def monthOff2025 (m : Nat) : Nat :=
  [0, 31, 59, 90, 120, 151, 181, 212, 243, 273, 304, 334].getD (m - 1) 0

/-- Days from 1970-01-01 to the given 2025 date (2025-01-01 is day 20089). -/
def epochDay2025 (m d : Nat) : Nat :=
  20089 + monthOff2025 m + (d - 1)

/-- The strptime model: epoch milliseconds on success, `none` on any
parse error (a raised `ValueError`). -/
def strptimeLogTs (ts_str : String) : Option Int := do
  let cs0 := ts_str.data.dropWhile isPySpace
  let (day, r1) ← takeDigit2
    (fun a v => (a == 3 && v ≤ 31) || a == 1 || a == 2 || (a == 0 && 1 ≤ v))
    (fun n => 1 ≤ n) cs0
  let r2 ← reqWs r1
  let (mon, r3) ← monthFromAbbr r2
  let r4 ← reqWs r3
  let (hh, r5) ← takeDigit2 (fun a v => a ≤ 1 || (a == 2 && v ≤ 23)) (fun _ => true) r4
  let r6 ← reqChar ':' r5
  let (mm, r7) ← takeDigit2 (fun a _ => a ≤ 5) (fun _ => true) r6
  let r8 ← reqChar ':' r7
  let (ss, r9) ← takeDigit2 (fun a v => a ≤ 5 || (a == 6 && v ≤ 61)) (fun _ => true) r8
  let r10 ← reqChar '.' r9
  let fd := r10.takeWhile Char.isDigit
  if fd.isEmpty then none
  else if 6 < fd.length then none
  else if !(r10.drop fd.length).isEmpty then none
  else if 60 ≤ ss then none
  else if daysInMonth2025 mon < day then none
  else
    let micro := digitsToNat fd * 10 ^ (6 - fd.length)
    some (((epochDay2025 mon day) * 86400 + hh * 3600 + mm * 60 + ss : Int) * 1000
      + (micro / 1000 : Nat))

/-! ### Shared sequence-builder passes (SequenceBuilder)

Both extractor mains run the same two passes over their collected event
list: a reverse pass marking, per user key, the last event (the first
one seen from the right), and a forward pass computing `delayMs` as the
clamped gap to the next event (`0` for the last event).  They differ
only in the per-event key condition (`is not None` vs truthiness) and
in whether the list was sorted first. -/

/-- One output record of an extractor main: the collected event plus the
`delayMs` and `isLastReq` fields added on output. -/
structure Finalized (α : Type) where
  ev : α
  delayMs : Int
  isLastReq : Nat
  deriving DecidableEq

/-- The reverse marking pass: process the list from the right carrying
the `seen_users` set (a list with Python-equality membership); returns
the final seen set and each event paired with its `isLastReq` flag. -/
def markLastAux {α : Type} (keyOf : α → Option JVal) :
    List α → List JVal → (List JVal × List (α × Bool))
  | [], seen => (seen, [])
  | e :: rest, seen =>
    let p := markLastAux keyOf rest seen
    match keyOf e with
    | some u => if p.1.contains u then (p.1, (e, false) :: p.2) else (u :: p.1, (e, true) :: p.2)
    | none => (p.1, (e, false) :: p.2)

/-- The forward delay pass on the timestamp sequence:
`delay[i] = max(0, ts[i+1] - ts[i])`, `delay[last] = 0`. -/
def delaysOf : List Int → List Int
  | [] => []
  | [_] => [0]
  | a :: b :: rest => max 0 (b - a) :: delaysOf (b :: rest)

/-- The output loop of an extractor main over the marked events: each
record carries `delayMs = max(0, next ts - ts)` (`0` for the last) and
`isLastReq` as 0/1. -/
def attachDelays {α : Type} (tsOf : α → Int) : List (α × Bool) → List (Finalized α)
  | [] => []
  | [p] => [⟨p.1, 0, if p.2 then 1 else 0⟩]
  | p :: q :: rest =>
    ⟨p.1, max 0 (tsOf q.1 - tsOf p.1), if p.2 then 1 else 0⟩ :: attachDelays tsOf (q :: rest)

/-- The output stage of an extractor main: mark last requests, then
attach the computed delays. -/
def finalizeEvents {α : Type} (keyOf : α → Option JVal) (tsOf : α → Int)
    (evs : List α) : List (Finalized α) :=
  attachDelays tsOf (markLastAux keyOf evs []).2

namespace LogTraffic

/-- `parse_log_timestamp` of log_traffic_extractor.py: epoch
milliseconds, `0` on any parse error (never raises). -/
def parse_log_timestamp (ts_str : String) : Int :=
  (strptimeLogTs ts_str).getD 0

/-- `safe_json_extract`: try to parse, appending the missing closing
braces and retrying once on failure. -/
def safe_json_extract (json_str : String) : Option JVal :=
  if json_str == "" then none
  else
    match json_loads json_str with
    | some v => some v
    | none =>
      let opens := (json_str.data.filter (fun c => c == '{')).length
      let closes := (json_str.data.filter (fun c => c == '}')).length
      json_loads (json_str ++ String.mk (List.replicate (opens - closes) '}'))

/-- `decode_load_token_uid` of log_traffic_extractor.py: pad (four `=`
when the length is already a multiple of four, as the source computes),
base64-decode, decode utf-8 ignoring errors, then regex-search
`"uid":\s*"([^"]+)"`; any failure yields None. -/
def decode_load_token_uid (load_token : String) : Option String :=
  let padded := load_token ++ String.mk (List.replicate (4 - load_token.length % 4) '=')
  match b64decode padded with
  | none => none
  | some bytes => searchQuotedField "uid" (utf8DecodeIgnore bytes)

/-- `extract_load_token`. -/
def extract_load_token (line : String) : Option String :=
  searchQuotedField "loadToken" line

/-- `extract_user_id` of log_traffic_extractor.py.  Python `None` is
`JVal.null` throughout (a JSON `null` userId value inside a payload is
returned as Python `None` and is indistinguishable from "not found",
exactly as in the source). -/
def extract_user_id (line : String) : JVal :=
  let fromLabel (label : String) : Option JVal :=
    match searchPayloadBlock label line with
    | some blk =>
      match safe_json_extract blk with
      | some (.obj kvs) =>
        if !kvs.isEmpty && JVal.objHasKey kvs "userId" then some (JVal.objGet kvs "userId")
        else none
      | _ => none
    | none => none
  match fromLabel "payloadJson:" with
  | some v => v
  | none =>
    match fromLabel "postScoreJson:" with
    | some v => v
    | none =>
      match fromLabel "pickerStatusJson:" with
      | some v => v
      | none =>
        match searchQuotedField "userId" line with
        | some u => .str u
        | none =>
          match searchParamToken "uid" line with
          | some u => .str u
          | none => .null

/-- `ALLOWED_ENDPOINTS` of log_traffic_extractor.py (note: no
`/jigsaw`, no `/api/v1/puzzles`). -/
def ALLOWED_ENDPOINTS : List String :=
  ["/date-picker", "/postPickerStatus", "/api/v1/plays",
   "/crossword", "/sudoku", "/wordf", "/wordrow", "/wordsearch", "/quiz", "/codeword"]

/-- `GAME_ENDPOINTS` of log_traffic_extractor.py. -/
def GAME_ENDPOINTS : List String :=
  ["/crossword", "/sudoku", "/wordf", "/wordrow", "/wordsearch", "/quiz", "/codeword"]

/-- The capture groups of `LOG_PATTERN` for a line that matched it. -/
structure LogGroups where
  tsStr : String
  service : String
  servlet : String
  endpoint : String
  method : String
  deriving DecidableEq

/-- One collected event of log_traffic_extractor.py
(`{'ts': ..., 'endpoint': ..., 'userId': ...}`). -/
structure Event where
  ts : Int
  endpoint : String
  userId : JVal
  deriving DecidableEq

/-- The body of `process_line` after the `LOG_PATTERN` match succeeded
(`match.groups()` are `g`; the raw line is still consulted for the
userId/loadToken searches).  `none` models returning `None`. -/
def process_line_matched (g : LogGroups) (line : String) : Option Event :=
  if g.service != "LoggingFilter" then none
  else if g.servlet == "ErrorServlet" then none
  else if !(ALLOWED_ENDPOINTS.contains g.endpoint) then none
  else
    let ts := parse_log_timestamp g.tsStr
    if ts == 0 then none
    else
      let endpoint := if GAME_ENDPOINTS.contains g.endpoint then "/crossword" else g.endpoint
      if endpoint == "/postPickerStatus" then
        match extract_load_token line with
        | some tok =>
          match decode_load_token_uid tok with
          | some u => some ⟨ts, endpoint, .str u⟩
          | none => none
        | none => none
      else
        let userId := extract_user_id line
        if userId == .null then none else some ⟨ts, endpoint, userId⟩

/-- The sequence-building pass of `main` in log_traffic_extractor.py:
no sort; mark, from the right, the first occurrence per userId (the
condition is `user_id is not None`); then attach delays in the input
order.  (A userId that CPython could not hash would crash the set
insert; such values are treated as ordinary keys here.) -/
def mainFinalize (evs : List Event) : List (Finalized Event) :=
  finalizeEvents (fun e => if e.userId == .null then none else some e.userId) (fun e => e.ts) evs

end LogTraffic

namespace Pplmag

/-- `parse_log_timestamp` of pplmag_extractor.py with the default
`--year 2025` (the CLI can override the year; that path is outside this
model). -/
def parse_log_timestamp (ts_str : String) : Int :=
  (strptimeLogTs ts_str).getD 0

/-- `decode_load_token_uid` of pplmag_extractor.py: split the token on
`.`, urlsafe-base64-decode the second part (padding restored only when
needed), parse as JSON, return `payload.get('uid')`; any failure
(including the `AttributeError` of `.get` on a non-dict) yields None
via the bare `except`. -/
def decode_load_token_uid (load_token : String) : JVal :=
  let parts := load_token.splitOn "."
  if 2 ≤ parts.length then
    let payload_b64 := (parts.get? 1).getD ""
    let padding := 4 - payload_b64.length % 4
    let padded := if padding != 4 then payload_b64 ++ String.mk (List.replicate padding '=')
      else payload_b64
    match urlsafe_b64decode padded with
    | none => .null
    | some bytes =>
      match json_loads (utf8DecodeIgnore bytes) with
      | some (.obj kvs) => JVal.objGet kvs "uid"
      | _ => .null
  else .null

/-- Python `uid.rstrip(',')`. -/
def rstripCommas (s : String) : String :=
  String.mk (s.data.reverse.dropWhile (fun c => c == ',')).reverse

/-- The query-parameter fallbacks of `extract_user_id`
(`\buserId:\s*(\S+)` then `\buid:\s*(\S+)`, both comma-stripped). -/
def paramUid (line : String) : JVal :=
  match searchParamToken "userId" line with
  | some u => .str (rstripCommas u)
  | none =>
    match searchParamToken "uid" line with
    | some u => .str (rstripCommas u)
    | none => .null

/-- `extract_user_id` of pplmag_extractor.py: for POST, a bare JSON
`userId` field first, then a loadToken decode (kept only if truthy);
then, for every method, the query-parameter fallbacks. -/
def extract_user_id (line : String) (method : String) : JVal :=
  if method == "POST" then
    match searchQuotedField "userId" line with
    | some u => .str u
    | none =>
      match searchQuotedField "loadToken" line with
      | some tok =>
        let uid := decode_load_token_uid tok
        if uid.truthy then uid else paramUid line
      | none => paramUid line
  else paramUid line

/-- `ALLOWED_ENDPOINTS` of pplmag_extractor.py (includes `/jigsaw` and
`/api/v1/puzzles`). -/
def ALLOWED_ENDPOINTS : List String :=
  ["/api/v1/plays", "/api/v1/puzzles", "/postPickerStatus",
   "/crossword", "/jigsaw", "/sudoku", "/wordf", "/wordrow", "/wordsearch", "/quiz", "/codeword"]

/-- `GAME_ENDPOINTS` of pplmag_extractor.py. -/
def GAME_ENDPOINTS : List String :=
  ["/crossword", "/jigsaw", "/sudoku", "/wordf", "/wordrow", "/wordsearch", "/quiz", "/codeword"]

/-- The capture groups of the pplmag `LOG_PATTERN` (the service name
`LoggingFilter` is matched literally by this regex, so it is not a
group). -/
structure LogGroups where
  tsStr : String
  servlet : String
  endpoint : String
  method : String
  deriving DecidableEq

/-- One collected event of pplmag_extractor.py. -/
structure Event where
  ts : Int
  endpoint : String
  method : String
  userId : JVal
  deriving DecidableEq

/-- The body of `process_line` after the `LOG_PATTERN` match succeeded. -/
def process_line_matched (g : LogGroups) (line : String) : Option Event :=
  if !(ALLOWED_ENDPOINTS.contains g.endpoint) then none
  else
    let ts := parse_log_timestamp g.tsStr
    if ts == 0 then none
    else
      let endpoint := if GAME_ENDPOINTS.contains g.endpoint then "/crossword" else g.endpoint
      let userId := extract_user_id line g.method
      if (endpoint == "/api/v1/plays" || endpoint == "/postPickerStatus") && userId == .null
      then none
      else some ⟨ts, endpoint, g.method, userId⟩

/-- The sequence-building pass of `main` in pplmag_extractor.py:
stable-sort ascending by ts, mark from the right per truthy userId
(the condition is `if user_id and ...`), then attach delays. -/
def mainFinalize (evs : List Event) : List (Finalized Event) :=
  finalizeEvents (fun e => if e.userId.truthy then some e.userId else none) (fun e => e.ts)
    (evs.mergeSort (fun a b => decide (a.ts ≤ b.ts)))

end Pplmag

namespace Distiller

/-- `parse_log_timestamp` of log_distiller.py (same body as the
extractor's). -/
def parse_log_timestamp (ts_str : String) : Int :=
  (strptimeLogTs ts_str).getD 0

/-- `extract_endpoint`: the part after the first colon of the bracketed
context, or the whole context when it has no colon. -/
def extract_endpoint (context : String) : String :=
  let pre := context.data.takeWhile (fun c => c != ':')
  if pre.length == context.data.length then context
  else String.mk (context.data.drop (pre.length + 1))

/-- The capture groups of the distiller `LOG_PATTERN`
(timestamp, bracketed context, `payloadJson` capture). -/
structure LogGroups where
  tsStr : String
  context : String
  payloadStr : String
  deriving DecidableEq

/-- One output record of log_distiller.py. -/
structure DRec where
  ts : Int
  endpoint : String
  user : JVal
  series : JVal
  id : JVal
  payload : JVal
  deriving DecidableEq

/-- Python `payload.get(k, d)`. -/
def pyGetD (kvs : List (String × JVal)) (k : String) (d : JVal) : JVal :=
  if JVal.objHasKey kvs k then JVal.objGet kvs k else d

/-- The body of `process_line` of log_distiller.py after its
`LOG_PATTERN` matched: parse the payload, require a truthy userId, and
emit the record with `ts = parse_log_timestamp(...)` — with no check
that the parsed timestamp is nonzero. -/
def process_line_matched (g : LogGroups) : Option DRec :=
  match json_loads g.payloadStr with
  | some (.obj kvs) =>
    let user_id := pyGetD kvs "userId" (.str "")
    if !user_id.truthy then none
    else some
      { ts := parse_log_timestamp g.tsStr
        endpoint := extract_endpoint g.context
        user := user_id
        series := pyGetD kvs "series" (.str "")
        id := pyGetD kvs "id" (.str "")
        payload := .obj kvs }
  | _ => none

end Distiller

namespace Merge

/-- One JSONL record consumed by merge_traffic.py.  The `ts` and
`delayMs` fields (the only ones the merger reads or writes) are lifted
out; every other field is carried verbatim in `extra`.  `ts` is
integer-valued as in every traffic record (a non-numeric `ts` would
crash CPython's mixed-type sort and is outside this model). -/
structure MRec where
  ts? : Option Int
  delayMs? : Option Int
  extra : List (String × JVal)
  deriving DecidableEq

/-- The sort key `r.get('ts', 0)`. -/
def tsKey (r : MRec) : Int := r.ts?.getD 0

/-- The delay-recomputation loop of `merge_and_sort`
(`all_records[i]['delayMs'] = max(0, ts[i+1] - ts[i])`, last `= 0`),
expressed over neighbours. -/
def setDelays : List MRec → List MRec
  | [] => []
  | [r] => [{ r with delayMs? := some 0 }]
  | r :: r2 :: rest =>
    { r with delayMs? := some (max 0 (tsKey r2 - tsKey r)) } :: setDelays (r2 :: rest)

/-- `merge_and_sort` after file loading: concatenate the parseable
records (a `none` entry is a line whose `json.loads` failed and was
skipped), stable-sort by `r.get('ts', 0)`, recompute `delayMs` over the
merged order. -/
def merge_and_sort (lines : List (Option MRec)) : List MRec :=
  setDelays ((lines.filterMap id).mergeSort (fun a b => decide (tsKey a ≤ tsKey b)))

/-- Merging two already-loaded streams (records concatenated in file
order, as the loader appends file after file). -/
def mergeTwo (xs ys : List MRec) : List MRec :=
  setDelays ((xs ++ ys).mergeSort (fun a b => decide (tsKey a ≤ tsKey b)))

/-- A record with its derived `delayMs` erased (for frame statements:
everything except `delayMs`). -/
def strip (r : MRec) : Option Int × List (String × JVal) := (r.ts?, r.extra)

end Merge

namespace Api

/-- Hardcoded values of api_flow_v2.py. -/
def PUZZLE_ID : String := "1461ef6d"

def STATE_LEN : Nat := 185

structure HttpOk where
  status : Nat
  body : String
  latency : ℚ
  deriving DecidableEq

/-- Outcome of one transport send: a response, or a raised
`requests.RequestException` (connection error / timeout). -/
inductive HttpOut where
  | ok (r : HttpOk)
  | transportErr
  deriving DecidableEq

/-- The environment of one SessionFlow execution: the HTTP transport
(indexed by the session's request counter), the resolved uid
(`config.get_uid()`, with any randomness resolved), the random grid
states (`_generate_state`, `_mutate_state` per iteration,
`_complete_state`) and the wall clock per play iteration. -/
structure FlowEnv where
  resp : Nat → HttpOut
  uid : String
  initState : String × String
  mutateState : Nat → String × String → String × String
  completeState : String × String
  nowMs : Nat → Int

/-- One issued request, as recorded for frame statements: method,
endpoint, query params and JSON payload. -/
structure Request where
  method : String
  endpoint : String
  params : List (String × JVal)
  payload : Option JVal
  deriving DecidableEq

/-- The `self.context` dict.  For keys whose absence matters
(`context.get('play_id', '')` distinguishes an absent key from a
present `None`), `none` is key-absent and `some .null` is a present
Python `None`. -/
structure Ctx where
  uid : Option String
  load_token : Option JVal
  params_json : Option JVal
  puzzle_id : Option String
  crossword_params : Option JVal
  decoded_play : Option JVal
  play_id : Option JVal
  deriving DecidableEq

def Ctx.empty : Ctx := ⟨none, none, none, none, none, none, none⟩

/-- Mutable per-session state threaded through the steps: the context,
the request counter and the trace of issued requests. -/
structure St where
  ctx : Ctx
  callIdx : Nat
  trace : List Request
  deriving DecidableEq

def initSt : St := ⟨Ctx.empty, 0, []⟩

/-- `ValueError`s raised by the flow (all caught by
`run_sequential_flow`). -/
inductive ValErr where
  | paramsNotFound
  | decodeChain
  | noRawsps
  | noLoadToken
  | needLoadToken
  | needStep1Ctx
  | needStep4Ctx
  | respNotJson
  | pickerStatusFailed (data : JVal)
  | playsFailed (iter : Nat) (data : JVal)
  deriving DecidableEq

/-- Exceptions NOT caught by `run_sequential_flow` (they crash the
session thread and surface as the future's exception). -/
inductive UncErr where
  | attrErr
  | typeErr
  deriving DecidableEq

inductive FlowExn where
  | requestExn
  | valueExn (v : ValErr)
  | uncaught (u : UncErr)
  deriving DecidableEq

structure Step1Res where
  status_code : Nat
  uid : String
  latency_ms : ℚ
  deriving DecidableEq

structure Step2Res where
  status_code : Nat
  latency_ms : ℚ
  deriving DecidableEq

structure Step3Res where
  status_code : Nat
  puzzle_id : String
  latency_ms : ℚ
  deriving DecidableEq

structure IterRes where
  iteration : Nat
  play_state : Nat
  latency_ms : ℚ
  deriving DecidableEq

structure Step4Res where
  iterations : List IterRes
  success : Bool
  deriving DecidableEq

/-- `context.get(k)` for a JVal-valued key. -/
def ctxGetJ (o : Option JVal) : JVal := o.getD .null

/-- Python `str.strip()` on captured script content. -/
def pyStrip (cs : List Char) : String :=
  String.mk ((cs.dropWhile isPySpace).reverse.dropWhile isPySpace).reverse

/-- The content before the first occurrence of `lit` (the lazy
`(.*?)lit` step of the script-tag regex, under DOTALL). -/
def takeUntilLit (lit : List Char) : List Char → Option (List Char)
  | [] => none
  | c :: rest =>
    if lit.isPrefixOf (c :: rest) then some []
    else (takeUntilLit lit rest).map (c :: ·)

/-- The candidate continuations of a greedy `[^>]*lit` step: every split
of the `>`-free prefix at which `lit` matches, longest gap first
(the backtracking order of the greedy star), each mapped to the suffix
after `lit`. -/
def gtFreeCandidates (lit : List Char) (cs : List Char) : List (List Char) :=
  let gap := cs.takeWhile (fun c => c != '>')
  ((List.range (gap.length + 1)).reverse).filterMap (fun i =>
    let s := cs.drop i
    if lit.isPrefixOf s then some (s.drop lit.length) else none)

/-- Match `[^>]*lit1[^>]*lit2[^>]*>(.*?)</script>` right after a
`<script` occurrence, with greedy backtracking over the two stars. -/
def matchScriptAt (lit1 lit2 : List Char) (afterScript : List Char) : Option String :=
  (gtFreeCandidates lit1 afterScript).findSome? (fun after1 =>
    (gtFreeCandidates lit2 after1).findSome? (fun after2 =>
      let gap := after2.takeWhile (fun c => c != '>')
      match after2.drop gap.length with
      | '>' :: body => (takeUntilLit ("</script>".data) body).map String.mk
      | _ => none))

/-- Leftmost search for the whole script-tag pattern. -/
def searchScriptAux (lit1 lit2 : List Char) : List Char → Option String
  | [] => none
  | c :: rest =>
    let here :=
      if ("<script".data).isPrefixOf (c :: rest) then
        matchScriptAt lit1 lit2 ((c :: rest).drop 7)
      else none
    match here with
    | some r => some r
    | none => searchScriptAux lit1 lit2 rest

/-- `extract_params_from_html`: try the two attribute orderings in
order; on the first regex match, `json.loads(match.group(1).strip())`
decides the outcome (a parse failure raises without trying the second
pattern, exactly as in the source); no match at all raises.  `none`
models the raised `ValueError`. -/
def extract_params_from_html (html : String) : Option JVal :=
  let lit1 := "type=\"application/json\"".data
  let lit2 := "id=\"params\"".data
  match searchScriptAux lit1 lit2 html.data with
  | some content => json_loads (pyStrip content.data)
  | none =>
    match searchScriptAux lit2 lit1 html.data with
    | some content => json_loads (pyStrip content.data)
    | none => none

/-- `b64_decode_json`: strict base64 + utf-8 + JSON chain; each failure
is a `ValueError` subclass (caught), except calling it on a non-string
which is a `TypeError` (uncaught). -/
def b64_decode_json (v : JVal) : Except FlowExn JVal :=
  match v with
  | .str s =>
    match b64decode s with
    | none => .error (.valueExn .decodeChain)
    | some bytes =>
      match utf8DecodeStrict bytes with
      | none => .error (.valueExn .decodeChain)
      | some txt =>
        match json_loads txt with
        | none => .error (.valueExn .decodeChain)
        | some j => .ok j
  | _ => .error (.uncaught .typeErr)

/-- `make_request`: consult the transport for this session's next
request, record the request, advance the counter. -/
def make_request (env : FlowEnv) (st : St) (method endpoint : String)
    (params : List (String × JVal)) (payload : Option JVal) : HttpOut × St :=
  (env.resp st.callIdx,
    { st with callIdx := st.callIdx + 1,
              trace := st.trace ++ [⟨method, endpoint, params, payload⟩] })

/-- `step1_date_picker`. -/
def step1_date_picker (env : FlowEnv) (st : St) : Except FlowExn (Step1Res × St) :=
  let uid := env.uid
  let st := { st with ctx := { st.ctx with uid := some uid } }
  let pr := make_request env st "GET" "date-picker"
    [("set", .str "gandalf"), ("uid", .str uid)] none
  match pr.1 with
  | .transportErr => .error .requestExn
  | .ok r =>
    if 400 ≤ r.status then .error .requestExn
    else
      match extract_params_from_html r.body with
      | none => .error (.valueExn .paramsNotFound)
      | some params_json =>
        match params_json with
        | .obj kvs =>
          let rawsps := JVal.objGet kvs "rawsps"
          if !rawsps.truthy then .error (.valueExn .noRawsps)
          else
            match b64_decode_json rawsps with
            | .error e => .error e
            | .ok decoded =>
              match decoded with
              | .obj dkvs =>
                let load_token := JVal.objGet dkvs "loadToken"
                if !load_token.truthy then .error (.valueExn .noLoadToken)
                else
                  .ok (⟨r.status, uid, r.latency⟩,
                    { pr.2 with ctx := { pr.2.ctx with
                        load_token := some load_token,
                        params_json := some params_json } })
              | _ => .error (.uncaught .attrErr)
        | _ => .error (.uncaught .attrErr)

/-- `step2_post_picker_status`. -/
def step2_post_picker_status (env : FlowEnv) (st : St) : Except FlowExn (Step2Res × St) :=
  let load_token := ctxGetJ st.ctx.load_token
  if !load_token.truthy then .error (.valueExn .needLoadToken)
  else
    let payload : JVal := .obj
      [("loadToken", load_token), ("isVerified", .bool true),
       ("adDuration", .num 0), ("reason", .str "displaying puzzle picker")]
    let pr := make_request env st "POST" "postPickerStatus" [] (some payload)
    match pr.1 with
    | .transportErr => .error .requestExn
    | .ok r =>
      if 400 ≤ r.status then .error .requestExn
      else
        match json_loads r.body with
        | none => .error (.valueExn .respNotJson)
        | some data =>
          match data with
          | .obj kvs =>
            if !(JVal.objGet kvs "status").eqZero then
              .error (.valueExn (.pickerStatusFailed data))
            else .ok (⟨r.status, r.latency⟩, pr.2)
          | _ => .error (.uncaught .attrErr)

/-- `step3_load_crossword` (hardcoded puzzle id). -/
def step3_load_crossword (env : FlowEnv) (st : St) : Except FlowExn (Step3Res × St) :=
  let load_token := ctxGetJ st.ctx.load_token
  let uidVal := st.ctx.uid.getD ""
  if !load_token.truthy || uidVal == "" then .error (.valueExn .needStep1Ctx)
  else
    let puzzle_id := PUZZLE_ID
    let st := { st with ctx := { st.ctx with puzzle_id := some puzzle_id } }
    let src_url := "https://cdn-test.amuselabs.com/pmm/date-picker?set=gandalf&uid=" ++ uidVal
    let pr := make_request env st "GET" "crossword"
      [("id", .str puzzle_id), ("set", .str "gandalf"), ("picker", .str "date-picker"),
       ("src", .str src_url), ("uid", .str uidVal), ("loadToken", load_token)] none
    match pr.1 with
    | .transportErr => .error .requestExn
    | .ok r =>
      if 400 ≤ r.status then .error .requestExn
      else
        match extract_params_from_html r.body with
        | none => .error (.valueExn .paramsNotFound)
        | some crossword_params =>
          let st2 := { pr.2 with ctx := { pr.2.ctx with crossword_params := some crossword_params } }
          match crossword_params with
          | .obj kvs =>
            let rawp := JVal.objGet kvs "rawp"
            if rawp.truthy then
              match b64_decode_json rawp with
              | .error e => .error e
              | .ok decoded_play =>
                match decoded_play with
                | .obj dk =>
                  .ok (⟨r.status, puzzle_id, r.latency⟩,
                    { st2 with ctx := { st2.ctx with
                        decoded_play := some decoded_play,
                        play_id := some (JVal.objGet dk "playId") } })
                | _ => .error (.uncaught .attrErr)
            else .ok (⟨r.status, puzzle_id, r.latency⟩, st2)
          | _ => .error (.uncaught .attrErr)

/-- `decoded_play.get(k, default) if decoded_play else default`. -/
def getPlayDefault (decoded_play : Option JVal) (k : String) (d : JVal) :
    Except FlowExn JVal :=
  match decoded_play with
  | none => .ok d
  | some v =>
    if v.truthy then
      match v with
      | .obj kvs => .ok (Distiller.pyGetD kvs k d)
      | _ => .error (.uncaught .attrErr)
    else .ok d

/-- The ten-iteration loop of `step4_post_plays`.  The counter `n` is
the remaining iterations (starting at 10), `i` the 0-based iteration
index as in the source. -/
def step4Loop (env : FlowEnv) (load_token : JVal) (uidVal puzzle_id : String)
    (play_id : JVal) (decoded_play : Option JVal) :
    Nat → Nat → String → String → List IterRes → St →
    Except FlowExn (List IterRes × St)
  | 0, _, _, _, acc, st => .ok (acc, st)
  | n + 1, i, primary, secondary, acc, st =>
    let ts := env.nowMs i
    let step : Nat × JVal × JVal × String × String :=
      if i == 0 then (1, .null, .null, primary, secondary)
      else if i == 9 then (4, .str env.completeState.1, .str env.completeState.2, primary, secondary)
      else
        let ms := env.mutateState i (primary, secondary)
        (2, .str ms.1, .str ms.2, ms.1, ms.2)
    match getPlayDefault decoded_play "score" (.num 0) with
    | .error e => .error e
    | .ok scoreV =>
    match getPlayDefault decoded_play "timeOnPage" (.num 5000) with
    | .error e => .error e
    | .ok topV =>
    match getPlayDefault decoded_play "timeTaken" (.num 5) with
    | .error e => .error e
    | .ok ttV =>
      let payload : JVal := .obj
        [("browser", .str "Mozilla/5.0 (Macintosh; Intel Mac OS X 10_15_7) AppleWebKit/537.36 (KHTML, like Gecko) Chrome/143.0.0.0 Safari/537.36"),
         ("fromPicker", .str "date-picker"),
         ("getProgressFromBackend", .bool true),
         ("id", .str puzzle_id),
         ("inContestMode", .bool false),
         ("loadToken", load_token),
         ("nClearClicks", .num 0), ("nExceptions", .num 0), ("nHelpClicks", .num 0),
         ("nPrints", .num 0), ("nPrintsEmpty", .num 0), ("nPrintsFilled", .num 0),
         ("nPrintsSol", .num 0), ("nResizes", .num 0), ("nSettingsClicks", .num 0),
         ("playId", play_id),
         ("playState", .num step.1),
         ("postScoreReason", .str "BLUR"),
         ("primaryState", step.2.1),
         ("score", scoreV),
         ("secondaryState", step.2.2.1),
         ("series", .str "gandalf"),
         ("streakLength", .num 0),
         ("timeOnPage", topV),
         ("timeTaken", ttV),
         ("timestamp", .num ts),
         ("updateLoadTable", .bool false),
         ("updatePlayTable", .bool true),
         ("updatedTimestamp", .num ts),
         ("userId", .str uidVal)]
      let pr := make_request env st "POST" "api/v1/plays" [] (some payload)
      match pr.1 with
      | .transportErr => .error .requestExn
      | .ok r =>
        if 400 ≤ r.status then .error .requestExn
        else
          match json_loads r.body with
          | none => .error (.valueExn .respNotJson)
          | some data =>
            match data with
            | .obj kvs =>
              if !(JVal.objGet kvs "status").eqZero then
                .error (.valueExn (.playsFailed (i + 1) data))
              else
                step4Loop env load_token uidVal puzzle_id play_id decoded_play
                  n (i + 1) step.2.2.2.1 step.2.2.2.2
                  (acc ++ [⟨i + 1, step.1, r.latency⟩]) pr.2
            | _ => .error (.uncaught .attrErr)

/-- `step4_post_plays` (hardcoded state length).  A mid-loop failure
discards the `results` accumulated inside the loop: the exception
propagates and the partial iteration list is never returned. -/
def step4_post_plays (env : FlowEnv) (st : St) : Except FlowExn (Step4Res × St) :=
  let load_token := ctxGetJ st.ctx.load_token
  let uidVal := st.ctx.uid.getD ""
  let puzzle_id := st.ctx.puzzle_id.getD ""
  if !load_token.truthy || uidVal == "" || puzzle_id == "" then
    .error (.valueExn .needStep4Ctx)
  else
    let play_id : JVal := st.ctx.play_id.getD (.str "")
    let decoded_play := st.ctx.decoded_play
    match step4Loop env load_token uidVal puzzle_id play_id decoded_play
        10 0 env.initState.1 env.initState.2 [] st with
    | .error e => .error e
    | .ok (results, st2) => .ok (⟨results, true⟩, st2)

/-- The `results` dict of `run_sequential_flow`: per-step entries are
present exactly when the step completed; `error` holds the caught
exception (its `str(e)` rendering is abstracted to the structured
exception). -/
structure FlowResults where
  step1 : Option Step1Res
  step2 : Option Step2Res
  step3 : Option Step3Res
  step4 : Option Step4Res
  success : Bool
  error : Option FlowExn
  deriving DecidableEq

/-- `run_sequential_flow`, additionally exposing the final session state
(for frame statements about the issued requests) when the flow
succeeded.  `RequestException` and `ValueError` are caught and turn
into a failure result keeping the steps completed so far; any other
exception propagates (`.error`). -/
def run_sequential_flow_traced (env : FlowEnv) :
    Except UncErr (FlowResults × Option St) :=
  match step1_date_picker env initSt with
  | .error (.uncaught u) => .error u
  | .error e => .ok (⟨none, none, none, none, false, some e⟩, none)
  | .ok (r1, st1) =>
    match step2_post_picker_status env st1 with
    | .error (.uncaught u) => .error u
    | .error e => .ok (⟨some r1, none, none, none, false, some e⟩, none)
    | .ok (r2, st2) =>
      match step3_load_crossword env st2 with
      | .error (.uncaught u) => .error u
      | .error e => .ok (⟨some r1, some r2, none, none, false, some e⟩, none)
      | .ok (r3, st3) =>
        match step4_post_plays env st3 with
        | .error (.uncaught u) => .error u
        | .error e => .ok (⟨some r1, some r2, some r3, none, false, some e⟩, none)
        | .ok (r4, st4) => .ok (⟨some r1, some r2, some r3, some r4, true, none⟩, some st4)

/-- `run_sequential_flow` as seen by callers. -/
def run_sequential_flow (env : FlowEnv) : Except UncErr FlowResults :=
  (run_sequential_flow_traced env).map (fun p => p.1)

/-- One entry of `wave_results` / `all_results`: a completed session
result, or a future whose `result()` raised (the `'error'` entry). -/
inductive WaveItem where
  | res (wave : Nat) (thread : Nat) (r : FlowResults)
  | crashed (wave : Nat) (thread : Nat) (e : UncErr)
  deriving DecidableEq

def itemSuccess : WaveItem → Bool
  | .res _ _ r => r.success
  | .crashed _ _ _ => false

/-- The per-session total of `run_wave_execution`:
`step1 + step2 + step3 latencies + sum of the step-4 iteration
latencies` (each read with `.get(..., 0)` defaults). -/
def sessionTotalLatency (r : FlowResults) : ℚ :=
  (match r.step1 with | some s => s.latency_ms | none => 0)
  + (match r.step2 with | some s => s.latency_ms | none => 0)
  + (match r.step3 with | some s => s.latency_ms | none => 0)
  + ((match r.step4 with | some s => s.iterations | none => []).map
      (fun (it : IterRes) => it.latency_ms)).sum

def pyMin : List ℚ → Option ℚ
  | [] => none
  | x :: xs => some (xs.foldl min x)

def pyMax : List ℚ → Option ℚ
  | [] => none
  | x :: xs => some (xs.foldl max x)

/-- One wave's statistics entry (`min`/`max`/`avg` keys are set only
when at least one latency was collected). -/
structure WaveStats where
  wave_number : Nat
  threads : Nat
  success : Nat
  failed : Nat
  duration_ms : ℚ
  latencies : List ℚ
  min? : Option ℚ
  max? : Option ℚ
  avg? : Option ℚ
  deriving DecidableEq

/-- One wave of `run_wave_execution`: launch `rps` sessions, collect
their outcomes, and aggregate.  The `as_completed` collection order is
modelled as submission order; every aggregate below is insensitive to
the order within the wave. -/
def runOneWave (sessions : Nat → Nat → FlowEnv) (waveWall : Nat → ℚ)
    (rps : Nat) (wave_num : Nat) : WaveStats × List WaveItem :=
  let wave_results : List WaveItem := (List.range rps).map (fun t =>
    match run_sequential_flow (sessions wave_num t) with
    | .ok r => .res (wave_num + 1) t r
    | .error e => .crashed (wave_num + 1) t e)
  let successful := wave_results.filter itemSuccess
  let latencies := successful.map (fun it =>
    match it with
    | .res _ _ r => sessionTotalLatency r
    | .crashed _ _ _ => 0)
  (⟨wave_num + 1, wave_results.length, successful.length,
    wave_results.length - successful.length, waveWall wave_num, latencies,
    pyMin latencies, pyMax latencies,
    if latencies.isEmpty then none
    else some (latencies.sum / (latencies.length : ℚ))⟩,
   wave_results)

/-- The run-level output of `run_wave_execution` (the reporting-only
fields — title, timestamp, config echo — are omitted). -/
structure RunData where
  waves : List WaveStats
  results : List WaveItem
  total_threads : Nat
  deriving DecidableEq

/-- `run_wave_execution`: one wave per second of `duration`, each
launching `rps` sessions; wall times and the per-session environments
come from the scheduler's surroundings.  The inter-wave sleep
(`max(0, 1.0 - elapsed)`) only spaces the waves in time and does not
affect any value below. -/
def run_wave_execution (rps duration : Nat)
    (sessions : Nat → Nat → FlowEnv) (waveWall : Nat → ℚ) : RunData :=
  let ws := (List.range duration).map (runOneWave sessions waveWall rps)
  { waves := ws.map Prod.fst
    results := (ws.map Prod.snd).flatten
    total_threads := rps * duration }

end Api

namespace Api

instance : Inhabited FlowResults := ⟨⟨none, none, none, none, false, none⟩⟩

/-- Whether a session environment leads to a successful flow (the
predicate `r.get('result', {}).get('success')` evaluates on it). -/
def flowSucceeded (env : FlowEnv) : Bool :=
  match run_sequential_flow env with
  | .ok r => r.success
  | .error _ => false

/-- The flow result of a session environment (`default` for a crashed
session; used only under `flowSucceeded`). -/
def flowResultD (env : FlowEnv) : FlowResults :=
  match run_sequential_flow env with
  | .ok r => r
  | .error _ => default

/-- Whether one `/api/v1/plays` response lets its iteration succeed:
2xx/3xx transport, JSON-object body, zero `status`. -/
def playsOk (o : HttpOut) : Bool :=
  match o with
  | .ok hr =>
    decide (hr.status < 400) &&
      (match json_loads hr.body with
       | some (.obj kvs) => (JVal.objGet kvs "status").eqZero
       | _ => false)
  | .transportErr => false

/-- The parsed data of a plays response that fails its iteration with a
non-zero application status (`none` when the iteration would not fail
that way). -/
def playsFailData (o : HttpOut) : Option JVal :=
  match o with
  | .ok hr =>
    if hr.status < 400 then
      match json_loads hr.body with
      | some (.obj kvs) =>
        if (JVal.objGet kvs "status").eqZero then none else some (.obj kvs)
      | _ => none
    else none
  | .transportErr => none

end Api

/-! ### Concrete fixtures for witnesses and counterexamples -/

namespace Fx

/-- An unsorted two-event input for the log_traffic sequence builder:
the later timestamp arrives first. -/
def exC1 : List LogTraffic.Event :=
  [⟨2, "/crossword", .str "a"⟩, ⟨1, "/crossword", .str "a"⟩]

def exC1pp : List Pplmag.Event :=
  [⟨2, "/crossword", "GET", .str "a"⟩, ⟨1, "/crossword", "GET", .str "a"⟩]

/-- A date-picker page whose params block carries a rawsps decoding to
`{"loadToken":"tok1"}`. -/
def html1 : String :=
  "<html><script type=\"application/json\" id=\"params\">\x7b\"rawsps\":\"eyJsb2FkVG9rZW4iOiJ0b2sxIn0=\"\x7d</script></html>"

def okJson : String := "\x7b\"status\": 0\x7d"

def failJson : String := "\x7b\"status\": 1\x7d"

/-- A crossword page whose params block has no `rawp` field. -/
def html3 : String :=
  "<script type=\"application/json\" id=\"params\">\x7b\"x\": 1\x7d</script>"

/-- A transport in which every request of the session succeeds. -/
def respOK : Nat → Api.HttpOut := fun n =>
  if n == 0 then .ok ⟨200, html1, 10⟩
  else if n == 1 then .ok ⟨200, okJson, 20⟩
  else if n == 2 then .ok ⟨200, html3, 30⟩
  else .ok ⟨200, okJson, 5⟩

/-- Like `respOK` but the fifth play iteration (request index 7) returns
application status 1. -/
def respFail5 : Nat → Api.HttpOut := fun n =>
  if n == 7 then .ok ⟨200, failJson, 5⟩ else respOK n

def envOK : Api.FlowEnv :=
  { resp := respOK
    uid := "vansh"
    initState := ("p0", "s0")
    mutateState := fun _ ps => ps
    completeState := ("pc", "sc")
    nowMs := fun _ => 1000 }

def env5 : Api.FlowEnv := { envOK with resp := respFail5 }

/-- A matched log line (groups plus raw line) for a POST
`/postPickerStatus` whose only identifier is a bare JSON userId field;
there is no loadToken anywhere in the line. -/
def ppsGroups : Pplmag.LogGroups :=
  ⟨"21 Dec 00:00:08.220", "PickerServlet", "/postPickerStatus", "POST"⟩

def ppsLine : String :=
  "21 Dec 00:00:08.220 LoggingFilter INFO  [PickerServlet:/postPickerStatus] - COMPLETED Request type: POST pickerStatusJson: \x7b\"userId\":\"bareuser\", \"isVerified\":true\x7d"

/-- A matched `/jigsaw` game-page line for each extractor. -/
def jigsawLtGroups : LogTraffic.LogGroups :=
  ⟨"21 Dec 00:00:08.220", "LoggingFilter", "GameServlet", "/jigsaw", "GET"⟩

def jigsawPpGroups : Pplmag.LogGroups :=
  ⟨"21 Dec 00:00:08.220", "GameServlet", "/jigsaw", "GET"⟩

def jigsawLine : String :=
  "21 Dec 00:00:08.220 LoggingFilter INFO  [GameServlet:/jigsaw] - COMPLETED Request type: GET uid: u1"

/-- Distiller groups whose timestamp is unparseable (`Xyz` is not a
month abbreviation) while the payload carries a userId. -/
def distGroups : Distiller.LogGroups :=
  ⟨"21 Xyz 00:00:00.134", "PlaysServlet:/api/v1/plays", "\x7b\"userId\":\"u1\"\x7d"⟩

/-- Two loaded merger streams and a third for associativity witnesses. -/
def mA : List Merge.MRec := [⟨some 5, some 99, [("isLastReq", .num 1)]⟩]

def mB : List Merge.MRec := [⟨some 1, some 7, []⟩, ⟨some 3, none, []⟩]

def mC : List Merge.MRec := [⟨some 2, some 0, [("userId", .str "u")]⟩]

/-- The concrete step-1 outcome of the `env5` session (steps 1-3 agree
with `envOK` since the first three responses are identical). -/
def fxA1 : Api.Step1Res × Api.St :=
  match Api.step1_date_picker env5 Api.initSt with
  | .ok p => p
  | .error _ => (⟨0, "", 0⟩, Api.initSt)

def fxA2 : Api.Step2Res × Api.St :=
  match Api.step2_post_picker_status env5 fxA1.2 with
  | .ok p => p
  | .error _ => (⟨0, 0⟩, Api.initSt)

def fxA3 : Api.Step3Res × Api.St :=
  match Api.step3_load_crossword env5 fxA2.2 with
  | .ok p => p
  | .error _ => (⟨0, "", 0⟩, Api.initSt)

/-- The concrete step-1 and step-2 outcomes of the `envOK` session. -/
def fxB1 : Api.Step1Res × Api.St :=
  match Api.step1_date_picker envOK Api.initSt with
  | .ok p => p
  | .error _ => (⟨0, "", 0⟩, Api.initSt)

def fxB2 : Api.Step2Res × Api.St :=
  match Api.step2_post_picker_status envOK fxB1.2 with
  | .ok p => p
  | .error _ => (⟨0, 0⟩, Api.initSt)

end Fx

/-- Decidable equality on `Except`, so that concrete flow outcomes can be
checked by evaluation. -/
instance {ε α : Type} [DecidableEq ε] [DecidableEq α] : DecidableEq (Except ε α) :=
  fun x y =>
  match x, y with
  | .ok a, .ok b =>
    if h : a = b then isTrue (by rw [h])
    else isFalse (fun hh => by injection hh with h2; exact h h2)
  | .error a, .error b =>
    if h : a = b then isTrue (by rw [h])
    else isFalse (fun hh => by injection hh with h2; exact h h2)
  | .ok a, .error b => isFalse (fun hh => Except.noConfusion hh)
  | .error a, .ok b => isFalse (fun hh => Except.noConfusion hh)

/-! ### Lemmas about the sequence-builder passes -/

theorem markLastAux_map_fst {α : Type} (k : α → Option JVal) :
    ∀ (evs : List α) (seen : List JVal),
      ((markLastAux k evs seen).2).map Prod.fst = evs := by
  intro evs
  induction evs with
  | nil => intro seen; simp [markLastAux]
  | cons e rest ih =>
    intro seen
    simp only [markLastAux]
    cases hk : k e with
    | some u =>
      by_cases hc : u ∈ (markLastAux k rest seen).1 <;> simp [hc, ih]
    | none => simp [ih]

theorem markLastAux_seen_iff {α : Type} (k : α → Option JVal) :
    ∀ (evs : List α) (seen : List JVal) (u : JVal),
      u ∈ (markLastAux k evs seen).1 ↔
        u ∈ seen ∨ (evs.any (fun e => k e == some u)) = true := by
  intro evs
  induction evs with
  | nil => intro seen u; simp [markLastAux]
  | cons e rest ih =>
    intro seen u
    simp only [markLastAux, List.any_cons]
    cases hk : k e with
    | some v =>
      have hiff : ((some v == some u) || rest.any (fun e => k e == some u)) = true ↔
          (v = u ∨ (rest.any (fun e => k e == some u)) = true) := by
        simp
      by_cases hc : v ∈ (markLastAux k rest seen).1
      · simp only [List.contains, List.elem_eq_mem, decide_eq_true_eq, hc, if_true]
        rw [ih, hiff]
        constructor
        · rintro (h | h)
          · exact Or.inl h
          · exact Or.inr (Or.inr h)
        · rintro (h | rfl | h)
          · exact Or.inl h
          · exact (ih seen v).mp hc
          · exact Or.inr h
      · simp only [List.contains, List.elem_eq_mem, decide_eq_true_eq, hc, if_false,
          List.mem_cons]
        rw [ih, hiff]
        constructor
        · rintro (rfl | h | h)
          · exact Or.inr (Or.inl rfl)
          · exact Or.inl h
          · exact Or.inr (Or.inr h)
        · rintro (h | rfl | h)
          · exact Or.inr (Or.inl h)
          · exact Or.inl rfl
          · exact Or.inr (Or.inr h)
    | none =>
      rw [ih]
      simp

theorem markLastAux_count {α : Type} (k : α → Option JVal) :
    ∀ (evs : List α) (seen : List JVal) (u : JVal),
      ((markLastAux k evs seen).2.countP (fun p => p.2 && (k p.1 == some u))) =
        if u ∈ seen then 0
        else if (evs.any (fun e => k e == some u)) = true then 1 else 0 := by
  intro evs
  induction evs with
  | nil => intro seen u; simp [markLastAux]
  | cons e rest ih =>
    intro seen u
    cases hk : k e with
    | some v =>
      by_cases hc : v ∈ (markLastAux k rest seen).1
      · simp only [markLastAux, hk, List.any_cons, List.contains, List.elem_eq_mem,
          decide_eq_true_eq, hc, if_true, List.countP_cons, Bool.false_and,
          if_false, Nat.add_zero]
        rw [ih]
        by_cases hu : u ∈ seen
        · simp [hu]
        · by_cases huv : v = u
          · subst huv
            have hany : (rest.any (fun e => k e == some v)) = true := by
              rcases (markLastAux_seen_iff k rest seen v).mp hc with h | h
              · exact absurd h hu
              · exact h
            simp [hu, hany, hk]
          · have hbeq : ((some v == some u) : Bool) = false := by
              simp [huv]
            simp [hu, hbeq, hk]
      · simp only [markLastAux, hk, List.any_cons, List.contains, List.elem_eq_mem,
          decide_eq_true_eq, hc, if_false, List.countP_cons]
        rw [ih]
        by_cases huv : v = u
        · subst huv
          have hnseen : v ∉ seen := fun h =>
            hc ((markLastAux_seen_iff k rest seen v).mpr (Or.inl h))
          have hnany : ¬((rest.any (fun e => k e == some v)) = true) := fun h =>
            hc ((markLastAux_seen_iff k rest seen v).mpr (Or.inr h))
          simp [hnseen, hnany, hk]
        · have hbeq : ((some v == some u) : Bool) = false := by
            simp [huv]
          simp [hbeq, hk]
    | none =>
      simp only [markLastAux, hk, List.any_cons, List.countP_cons]
      rw [ih]
      simp [hk]

theorem markLastAux_pairwise {α : Type} (k : α → Option JVal) :
    ∀ (evs : List α) (seen : List JVal),
      List.Pairwise (fun p q => ∀ u, p.2 = true → k p.1 = some u → k q.1 ≠ some u)
        (markLastAux k evs seen).2 := by
  intro evs
  induction evs with
  | nil => intro seen; simp [markLastAux]
  | cons e rest ih =>
    intro seen
    cases hk : k e with
    | some v =>
      by_cases hc : v ∈ (markLastAux k rest seen).1
      · simp only [markLastAux, hk, List.contains, List.elem_eq_mem, decide_eq_true_eq,
          hc, if_true]
        refine List.Pairwise.cons ?_ (ih seen)
        intro q _ u hfalse
        exact absurd hfalse (by simp)
      · simp only [markLastAux, hk, List.contains, List.elem_eq_mem, decide_eq_true_eq,
          hc, if_false]
        refine List.Pairwise.cons ?_ (ih seen)
        intro q hq u _ hu hqk
        have hv : v = u := by
          have := hk.symm.trans hu
          injection this
        subst hv
        have hq1 : q.1 ∈ rest := by
          have := List.mem_map_of_mem Prod.fst hq
          rw [markLastAux_map_fst] at this
          exact this
        have hany : (rest.any (fun e => k e == some v)) = true := by
          rw [List.any_eq_true]
          exact ⟨q.1, hq1, by simp [hqk]⟩
        exact hc ((markLastAux_seen_iff k rest seen v).mpr (Or.inr hany))
    | none =>
      simp only [markLastAux, hk]
      refine List.Pairwise.cons ?_ (ih seen)
      intro q _ u hfalse
      exact absurd hfalse (by simp)

theorem markLastAux_marked_key {α : Type} (k : α → Option JVal) :
    ∀ (evs : List α) (seen : List JVal) (p : α × Bool),
      p ∈ (markLastAux k evs seen).2 → p.2 = true → ∃ u, k p.1 = some u := by
  intro evs
  induction evs with
  | nil => intro seen p hp; simp [markLastAux] at hp
  | cons e rest ih =>
    intro seen p hp htrue
    cases hk : k e with
    | some v =>
      simp only [markLastAux, hk] at hp
      by_cases hc : v ∈ (markLastAux k rest seen).1
      · simp only [List.contains, List.elem_eq_mem, decide_eq_true_eq, hc, if_true,
          List.mem_cons] at hp
        rcases hp with rfl | hp
        · exact absurd htrue (by simp)
        · exact ih seen p hp htrue
      · simp only [List.contains, List.elem_eq_mem, decide_eq_true_eq, hc, if_false,
          List.mem_cons] at hp
        rcases hp with rfl | hp
        · exact ⟨v, hk⟩
        · exact ih seen p hp htrue
    | none =>
      simp only [markLastAux, hk] at hp
      simp only [List.mem_cons] at hp
      rcases hp with rfl | hp
      · exact absurd htrue (by simp)
      · exact ih seen p hp htrue

theorem attachDelays_length {α : Type} (tsOf : α → Int) :
    ∀ (l : List (α × Bool)), (attachDelays tsOf l).length = l.length := by
  intro l
  induction l with
  | nil => simp [attachDelays]
  | cons p rest ih =>
    cases rest with
    | nil => simp [attachDelays]
    | cons q r2 => simpa [attachDelays] using ih

theorem attachDelays_map_pair {α : Type} (tsOf : α → Int) :
    ∀ (l : List (α × Bool)),
      (attachDelays tsOf l).map (fun r => (r.ev, r.isLastReq)) =
        l.map (fun p => (p.1, if p.2 then (1 : Nat) else 0)) := by
  intro l
  induction l with
  | nil => simp [attachDelays]
  | cons p rest ih =>
    cases rest with
    | nil => simp [attachDelays]
    | cons q r2 => simpa [attachDelays] using ih

theorem attachDelays_map_ev {α : Type} (tsOf : α → Int) :
    ∀ (l : List (α × Bool)),
      (attachDelays tsOf l).map (fun r => r.ev) = l.map Prod.fst := by
  intro l
  induction l with
  | nil => simp [attachDelays]
  | cons p rest ih =>
    cases rest with
    | nil => simp [attachDelays]
    | cons q r2 => simpa [attachDelays] using ih

theorem attachDelays_head_ev {α : Type} (tsOf : α → Int) (q : α × Bool)
    (r2 : List (α × Bool)) :
    ∃ r, (attachDelays tsOf (q :: r2))[0]? = some r ∧ r.ev = q.1 := by
  cases r2 with
  | nil => exact ⟨⟨q.1, 0, if q.2 then 1 else 0⟩, by simp [attachDelays], rfl⟩
  | cons h t =>
    exact ⟨⟨q.1, max 0 (tsOf h.1 - tsOf q.1), if q.2 then 1 else 0⟩,
      by simp [attachDelays], rfl⟩

theorem attachDelays_delay {α : Type} (tsOf : α → Int) :
    ∀ (l : List (α × Bool)) (i : Nat) (r r2 : Finalized α),
      (attachDelays tsOf l)[i]? = some r → (attachDelays tsOf l)[i + 1]? = some r2 →
      r.delayMs = max 0 (tsOf r2.ev - tsOf r.ev) := by
  intro l
  induction l with
  | nil => intro i r r2 h1 h2; simp [attachDelays] at h1
  | cons p rest ih =>
    cases rest with
    | nil =>
      intro i r r2 h1 h2
      cases i with
      | zero => simp [attachDelays] at h2
      | succ j => simp [attachDelays] at h1
    | cons q r3 =>
      intro i r r2 h1 h2
      cases i with
      | zero =>
        simp only [attachDelays, List.getElem?_cons_zero, List.getElem?_cons_succ,
          Option.some.injEq] at h1 h2
        obtain ⟨rq, hrq, hev⟩ := attachDelays_head_ev tsOf q r3
        rw [hrq] at h2
        injection h2 with h2
        subst h2
        rw [← h1, hev]
      | succ j =>
        simp only [attachDelays, List.getElem?_cons_succ] at h1 h2
        exact ih j r r2 h1 h2

theorem attachDelays_last {α : Type} (tsOf : α → Int) :
    ∀ (l : List (α × Bool)) (r : Finalized α),
      (attachDelays tsOf l).getLast? = some r → r.delayMs = 0 := by
  intro l
  induction l with
  | nil => intro r h; simp [attachDelays] at h
  | cons p rest ih =>
    cases rest with
    | nil =>
      intro r h
      simp only [attachDelays, List.getLast?_singleton, Option.some.injEq] at h
      rw [← h]
    | cons q r3 =>
      intro r h
      have hne : attachDelays tsOf (q :: r3) ≠ [] := by
        cases r3 <;> simp [attachDelays]
      rw [show attachDelays tsOf (p :: q :: r3) =
        ⟨p.1, max 0 (tsOf q.1 - tsOf p.1), if p.2 then 1 else 0⟩ ::
          attachDelays tsOf (q :: r3) from rfl] at h
      cases hl : attachDelays tsOf (q :: r3) with
      | nil => exact absurd hl hne
      | cons x xs =>
        rw [hl, List.getLast?_cons_cons] at h
        rw [← hl] at h
        exact ih r h

theorem attachDelays_nonneg {α : Type} (tsOf : α → Int) :
    ∀ (l : List (α × Bool)) (r : Finalized α), r ∈ attachDelays tsOf l →
      0 ≤ r.delayMs := by
  intro l
  induction l with
  | nil => intro r hr; simp [attachDelays] at hr
  | cons p rest ih =>
    cases rest with
    | nil =>
      intro r hr
      simp only [attachDelays, List.mem_singleton] at hr
      subst hr
      simp
    | cons q r2 =>
      intro r hr
      simp only [attachDelays, List.mem_cons] at hr
      rcases hr with rfl | hr
      · simp
      · exact ih r hr

namespace Merge

theorem setDelays_length : ∀ (l : List MRec), (setDelays l).length = l.length := by
  intro l
  induction l with
  | nil => simp [setDelays]
  | cons p rest ih =>
    cases rest with
    | nil => simp [setDelays]
    | cons q r2 => simpa [setDelays] using ih

theorem setDelays_map_strip :
    ∀ (l : List MRec), (setDelays l).map strip = l.map strip := by
  intro l
  induction l with
  | nil => simp [setDelays]
  | cons p rest ih =>
    cases rest with
    | nil => simp [setDelays, strip]
    | cons q r2 => simpa [setDelays, strip] using ih

theorem setDelays_map_tsKey :
    ∀ (l : List MRec), (setDelays l).map tsKey = l.map tsKey := by
  intro l
  induction l with
  | nil => simp [setDelays]
  | cons p rest ih =>
    cases rest with
    | nil => simp [setDelays, tsKey]
    | cons q r2 => simpa [setDelays, tsKey] using ih

theorem setDelays_map_delay :
    ∀ (l : List MRec), (setDelays l).map (fun r => r.delayMs?) =
      (delaysOf (l.map tsKey)).map some := by
  intro l
  induction l with
  | nil => simp [setDelays, delaysOf]
  | cons p rest ih =>
    cases rest with
    | nil => simp [setDelays, delaysOf]
    | cons q r2 => simpa [setDelays, delaysOf, tsKey] using ih

theorem setDelays_head_tsKey (q : MRec) (r2 : List MRec) :
    ∃ r, (setDelays (q :: r2))[0]? = some r ∧ tsKey r = tsKey q := by
  cases r2 with
  | nil => exact ⟨{ q with delayMs? := some 0 }, by simp [setDelays], rfl⟩
  | cons h t =>
    exact ⟨{ q with delayMs? := some (max 0 (tsKey h - tsKey q)) },
      by simp [setDelays], by simp [tsKey]⟩

theorem setDelays_delay :
    ∀ (l : List MRec) (i : Nat) (r r2 : MRec),
      (setDelays l)[i]? = some r → (setDelays l)[i + 1]? = some r2 →
      r.delayMs? = some (max 0 (tsKey r2 - tsKey r)) := by
  intro l
  induction l with
  | nil => intro i r r2 h1 h2; simp [setDelays] at h1
  | cons p rest ih =>
    cases rest with
    | nil =>
      intro i r r2 h1 h2
      cases i with
      | zero => simp [setDelays] at h2
      | succ j => simp [setDelays] at h1
    | cons q r3 =>
      intro i r r2 h1 h2
      cases i with
      | zero =>
        simp only [setDelays, List.getElem?_cons_zero, List.getElem?_cons_succ,
          Option.some.injEq] at h1 h2
        obtain ⟨rq, hrq, hts⟩ := setDelays_head_tsKey q r3
        rw [hrq] at h2
        injection h2 with h2
        subst h2
        rw [← h1, hts]
        simp [tsKey]
      | succ j =>
        simp only [setDelays, List.getElem?_cons_succ] at h1 h2
        exact ih j r r2 h1 h2

theorem setDelays_last :
    ∀ (l : List MRec) (r : MRec),
      (setDelays l).getLast? = some r → r.delayMs? = some 0 := by
  intro l
  induction l with
  | nil => intro r h; simp [setDelays] at h
  | cons p rest ih =>
    cases rest with
    | nil =>
      intro r h
      simp only [setDelays, List.getLast?_singleton, Option.some.injEq] at h
      rw [← h]
    | cons q r3 =>
      intro r h
      have hne : setDelays (q :: r3) ≠ [] := by
        cases r3 <;> simp [setDelays]
      rw [show setDelays (p :: q :: r3) =
        { p with delayMs? := some (max 0 (tsKey q - tsKey p)) } ::
          setDelays (q :: r3) from rfl] at h
      cases hl : setDelays (q :: r3) with
      | nil => exact absurd hl hne
      | cons x xs =>
        rw [hl, List.getLast?_cons_cons] at h
        rw [← hl] at h
        exact ih r h

theorem setDelays_nonneg :
    ∀ (l : List MRec) (r : MRec), r ∈ setDelays l →
      ∃ d, r.delayMs? = some d ∧ 0 ≤ d := by
  intro l
  induction l with
  | nil => intro r hr; simp [setDelays] at hr
  | cons p rest ih =>
    cases rest with
    | nil =>
      intro r hr
      simp only [setDelays, List.mem_singleton] at hr
      subst hr
      exact ⟨0, rfl, le_refl 0⟩
    | cons q r2 =>
      intro r hr
      simp only [setDelays, List.mem_cons] at hr
      rcases hr with rfl | hr
      · exact ⟨max 0 (tsKey q - tsKey p), rfl, le_max_left 0 _⟩
      · exact ih r hr

end Merge

theorem finalizeEvents_map_ev {α : Type} (keyOf : α → Option JVal) (tsOf : α → Int)
    (evs : List α) :
    (finalizeEvents keyOf tsOf evs).map (fun r => r.ev) = evs := by
  unfold finalizeEvents
  rw [attachDelays_map_ev, markLastAux_map_fst]

theorem finalizeEvents_countP {α : Type} (keyOf : α → Option JVal) (tsOf : α → Int)
    (evs : List α) (u : JVal) :
    (finalizeEvents keyOf tsOf evs).countP
        (fun r => (r.isLastReq == 1) && (keyOf r.ev == some u)) =
      if (evs.any (fun e => keyOf e == some u)) = true then 1 else 0 := by
  unfold finalizeEvents
  have h1 : (attachDelays tsOf (markLastAux keyOf evs []).2).countP
      (fun r => (r.isLastReq == 1) && (keyOf r.ev == some u)) =
      ((attachDelays tsOf (markLastAux keyOf evs []).2).map
        (fun r => (r.ev, r.isLastReq))).countP
          (fun p => (p.2 == 1) && (keyOf p.1 == some u)) := by
    rw [List.countP_map]
    rfl
  rw [h1, attachDelays_map_pair, List.countP_map]
  have h2 : ((fun (p : α × Nat) => (p.2 == 1) && (keyOf p.1 == some u)) ∘
      (fun (p : α × Bool) => (p.1, if p.2 then (1 : Nat) else 0))) =
      (fun (p : α × Bool) => p.2 && (keyOf p.1 == some u)) := by
    funext p
    cases hp : p.2 <;> simp [hp]
  rw [h2, markLastAux_count]
  simp

theorem finalizeEvents_marked_key {α : Type} (keyOf : α → Option JVal) (tsOf : α → Int)
    (evs : List α) (r : Finalized α) (hr : r ∈ finalizeEvents keyOf tsOf evs)
    (hm : r.isLastReq = 1) : ∃ u, keyOf r.ev = some u := by
  unfold finalizeEvents at hr
  have hmem : (r.ev, r.isLastReq) ∈
      (attachDelays tsOf (markLastAux keyOf evs []).2).map
        (fun r => (r.ev, r.isLastReq)) :=
    List.mem_map_of_mem _ hr
  rw [attachDelays_map_pair] at hmem
  rw [List.mem_map] at hmem
  obtain ⟨p, hp, hpe⟩ := hmem
  have h1 : p.1 = r.ev := congrArg Prod.fst hpe
  have h2 : (if p.2 then (1 : Nat) else 0) = r.isLastReq := congrArg Prod.snd hpe
  have hp2 : p.2 = true := by
    by_contra hfalse
    rw [Bool.not_eq_true] at hfalse
    rw [hfalse] at h2
    simp at h2
    rw [hm] at h2
    exact absurd h2 (by omega)
  obtain ⟨u, hu⟩ := markLastAux_marked_key keyOf evs [] p hp hp2
  exact ⟨u, h1 ▸ hu⟩

theorem finalizeEvents_rightmost {α : Type} (keyOf : α → Option JVal) (tsOf : α → Int)
    (evs : List α) :
    List.Pairwise (fun r1 r2 => ∀ u, r1.isLastReq = 1 → keyOf r1.ev = some u →
      keyOf r2.ev ≠ some u) (finalizeEvents keyOf tsOf evs) := by
  unfold finalizeEvents
  have hm := markLastAux_pairwise keyOf evs []
  have hmap := attachDelays_map_pair tsOf (markLastAux keyOf evs []).2
  have hpw : List.Pairwise
      (fun (a b : α × Nat) => ∀ u, a.2 = 1 → keyOf a.1 = some u → keyOf b.1 ≠ some u)
      ((attachDelays tsOf (markLastAux keyOf evs []).2).map (fun r => (r.ev, r.isLastReq))) := by
    rw [hmap, List.pairwise_map]
    refine hm.imp ?_
    intro p q hpq u h1 h2
    apply hpq u ?_ h2
    cases hp : p.2
    · rw [hp] at h1; simp at h1
    · rfl
  rw [List.pairwise_map] at hpw
  exact hpw

theorem finalizeEvents_sorted {α : Type} (keyOf : α → Option JVal) (tsOf : α → Int)
    (evs : List α) (hsort : List.Pairwise (fun a b => tsOf a ≤ tsOf b) evs) :
    List.Pairwise (fun r1 r2 => tsOf r1.ev ≤ tsOf r2.ev)
      (finalizeEvents keyOf tsOf evs) := by
  have hmap := finalizeEvents_map_ev keyOf tsOf evs
  have : List.Pairwise (fun a b => tsOf a ≤ tsOf b)
      ((finalizeEvents keyOf tsOf evs).map (fun r => r.ev)) := by
    rw [hmap]; exact hsort
  rw [List.pairwise_map] at this
  exact this

/-- For two members of a list carrying two Pairwise relations, either
they are the same occurrence or one of the relations applies in one of
the two orders. -/
theorem pairwise_two_mem {β : Type} {R S : β → β → Prop} :
    ∀ {l : List β}, l.Pairwise R → l.Pairwise S → ∀ {x y : β}, x ∈ l → y ∈ l →
      ∀ (P : Prop), (x = y → P) → (R x y → S x y → P) → (R y x → S y x → P) → P := by
  intro l
  induction l with
  | nil => intro _ _ x y hx; simp at hx
  | cons a t ih =>
    intro hR hS x y hx hy P heq hfwd hbwd
    rw [List.pairwise_cons] at hR hS
    rcases List.mem_cons.mp hx with rfl | hx2
    · rcases List.mem_cons.mp hy with rfl | hy2
      · exact heq rfl
      · exact hfwd (hR.1 y hy2) (hS.1 y hy2)
    · rcases List.mem_cons.mp hy with rfl | hy2
      · exact hbwd (hR.1 x hx2) (hS.1 x hx2)
      · exact ih hR.2 hS.2 hx2 hy2 P heq hfwd hbwd

theorem perm_any {β : Type} {l1 l2 : List β} (h : l1.Perm l2) (p : β → Bool) :
    l1.any p = l2.any p := by
  have hiff : (l1.any p = true) ↔ (l2.any p = true) := by
    rw [List.any_eq_true, List.any_eq_true]
    constructor <;> rintro ⟨x, hx, hpx⟩
    · exact ⟨x, h.mem_iff.mp hx, hpx⟩
    · exact ⟨x, h.mem_iff.mpr hx, hpx⟩
  cases h1 : l1.any p <;> cases h2 : l2.any p <;> simp_all

/-- C1, counterexample: with the input events out of timestamp order
(timestamps 2 then 1, same user), the sequence-building pass of
log_traffic_extractor.py emits the stream unsorted, and the single
isLastRequest mark goes to the timestamp-1 event — not the user's
maximum-timestamp event. -/
theorem claim_C1_counterexample :
    ((LogTraffic.mainFinalize Fx.exC1).map (fun r => r.ev.ts) = [2, 1]) ∧
    ¬ List.Pairwise (fun r1 r2 => r1.ev.ts ≤ r2.ev.ts)
        (LogTraffic.mainFinalize Fx.exC1) ∧
    (∃ r ∈ LogTraffic.mainFinalize Fx.exC1, r.isLastReq = 1 ∧
      r.ev.userId = .str "a" ∧ r.ev.ts = 1 ∧
      ∃ r2 ∈ LogTraffic.mainFinalize Fx.exC1, r2.ev.userId = .str "a" ∧
        r.ev.ts < r2.ev.ts) := by
  decide

/-- C1, amended: after pplmag_extractor.py's sequence-building pass the
stream is sorted ascending by timestamp and, for every truthy userId
present, exactly one event is marked isLastReq = 1 — one of maximal
timestamp for that user — while events without a truthy userId are never
marked.  log_traffic_extractor.py performs no sort: its output keeps the
input order, and for every userId value present (the condition there is
`is not None`) exactly one event is marked — the last occurrence in
input order (a marked event has no later event with the same userId). -/
theorem claim_C1 :
    (∀ evs : List Pplmag.Event,
      List.Pairwise (fun r1 r2 => r1.ev.ts ≤ r2.ev.ts) (Pplmag.mainFinalize evs)) ∧
    (∀ (evs : List Pplmag.Event) (u : JVal), u.truthy = true →
      ((Pplmag.mainFinalize evs).countP
          (fun r => (r.isLastReq == 1) && (r.ev.userId == u))) =
        (if (evs.any (fun e => e.userId == u)) = true then 1 else 0)) ∧
    (∀ (evs : List Pplmag.Event) (r1 r2 : Finalized Pplmag.Event),
      r1 ∈ Pplmag.mainFinalize evs → r2 ∈ Pplmag.mainFinalize evs →
      r1.isLastReq = 1 → r1.ev.userId.truthy = true →
      r1.ev.userId = r2.ev.userId → r2.ev.ts ≤ r1.ev.ts) ∧
    (∀ (evs : List Pplmag.Event) (r : Finalized Pplmag.Event),
      r ∈ Pplmag.mainFinalize evs → r.isLastReq = 1 → r.ev.userId.truthy = true) ∧
    (∀ evs : List LogTraffic.Event,
      (LogTraffic.mainFinalize evs).map (fun r => r.ev) = evs) ∧
    (∀ (evs : List LogTraffic.Event) (u : JVal), u ≠ .null →
      ((LogTraffic.mainFinalize evs).countP
          (fun r => (r.isLastReq == 1) && (r.ev.userId == u))) =
        (if (evs.any (fun e => e.userId == u)) = true then 1 else 0)) ∧
    (∀ evs : List LogTraffic.Event,
      List.Pairwise (fun r1 r2 => r1.isLastReq = 1 → r1.ev.userId ≠ .null →
        r1.ev.userId = r2.ev.userId → False) (LogTraffic.mainFinalize evs)) := by
  have hbaseP : ∀ evs : List Pplmag.Event,
      List.Pairwise (fun (a b : Pplmag.Event) => a.ts ≤ b.ts)
        (evs.mergeSort (fun a b => decide (a.ts ≤ b.ts))) := by
    intro evs
    have htrans : ∀ (a b c : Pplmag.Event), decide (a.ts ≤ b.ts) = true →
        decide (b.ts ≤ c.ts) = true → decide (a.ts ≤ c.ts) = true := by
      intro a b c h1 h2
      simp only [decide_eq_true_eq] at h1 h2 ⊢
      omega
    have htot : ∀ (a b : Pplmag.Event),
        (decide (a.ts ≤ b.ts) || decide (b.ts ≤ a.ts)) = true := by
      intro a b
      simp only [Bool.or_eq_true, decide_eq_true_eq]
      omega
    exact (List.sorted_mergeSort htrans htot evs).imp (by
      intro a b h
      exact of_decide_eq_true h)
  have hkP : ∀ (u : JVal), u.truthy = true → ∀ (e : Pplmag.Event),
      (((if e.userId.truthy then some e.userId else none) == some u) : Bool) =
        (e.userId == u) := by
    intro u hu e
    cases htr : e.userId.truthy
    · have h1 : (e.userId == u) = false := by
        by_cases he : e.userId = u
        · exfalso
          rw [he] at htr
          rw [htr] at hu
          exact absurd hu (by simp)
        · simp [he]
      simp [htr, h1]
    · simp [htr]
  have hkL : ∀ (u : JVal), u ≠ .null → ∀ (e : LogTraffic.Event),
      (((if e.userId == JVal.null then none else some e.userId) == some u) : Bool) =
        (e.userId == u) := by
    intro u hu e
    by_cases hn : e.userId = JVal.null
    · have : (e.userId == JVal.null) = true := by simp [hn]
      rw [this]
      simp only [if_true]
      have h2 : (e.userId == u) = false := by
        simp only [beq_eq_false_iff_ne, ne_eq, hn]
        exact fun h => hu h.symm
      simp [h2]
    · have : (e.userId == JVal.null) = false := by simp [hn]
      rw [this]
      simp
  refine ⟨?_, ?_, ?_, ?_, ?_, ?_, ?_⟩
  · intro evs
    exact finalizeEvents_sorted _ _ _ (hbaseP evs)
  · intro evs u hu
    have hpred : (fun (r : Finalized Pplmag.Event) =>
        (r.isLastReq == 1) && (r.ev.userId == u)) =
        (fun (r : Finalized Pplmag.Event) => (r.isLastReq == 1) &&
          ((if r.ev.userId.truthy then some r.ev.userId else none) == some u)) := by
      funext r
      rw [hkP u hu r.ev]
    have hany : ((evs.mergeSort (fun a b => decide (a.ts ≤ b.ts))).any
        (fun e => ((if e.userId.truthy then some e.userId else none) == some u))) =
        (evs.any (fun e => e.userId == u)) := by
      rw [perm_any (List.mergeSort_perm evs _)]
      congr 1
      funext e
      rw [hkP u hu e]
    calc (Pplmag.mainFinalize evs).countP
          (fun r => (r.isLastReq == 1) && (r.ev.userId == u))
        = (Pplmag.mainFinalize evs).countP
            (fun r => (r.isLastReq == 1) &&
              ((if r.ev.userId.truthy then some r.ev.userId else none) == some u)) := by
          rw [hpred]
      _ = if ((evs.mergeSort (fun a b => decide (a.ts ≤ b.ts))).any
            (fun e => ((if e.userId.truthy then some e.userId else none) == some u))) = true
          then 1 else 0 :=
        finalizeEvents_countP
          (fun (e : Pplmag.Event) => if e.userId.truthy then some e.userId else none)
          (fun e => e.ts) _ u
      _ = _ := by rw [hany]
  · intro evs r1 r2 h1 h2 hm htr huid
    refine pairwise_two_mem (finalizeEvents_sorted _ _ _ (hbaseP evs))
      (finalizeEvents_rightmost _ _ _) h1 h2 _ ?_ ?_ ?_
    · intro h
      rw [h]
    · intro _ hS
      exfalso
      refine hS r1.ev.userId hm ?_ ?_
      · simp [htr]
      · rw [← huid]
        simp [htr]
    · intro hR _
      exact hR
  · intro evs r hr hm
    obtain ⟨u, hu⟩ := finalizeEvents_marked_key _ _ _ r hr hm
    by_cases htr : r.ev.userId.truthy
    · exact htr
    · rw [Bool.not_eq_true] at htr
      rw [htr] at hu
      simp at hu
  · intro evs
    exact finalizeEvents_map_ev _ _ _
  · intro evs u hu
    have hpred : (fun (r : Finalized LogTraffic.Event) =>
        (r.isLastReq == 1) && (r.ev.userId == u)) =
        (fun (r : Finalized LogTraffic.Event) => (r.isLastReq == 1) &&
          ((if r.ev.userId == JVal.null then none else some r.ev.userId) == some u)) := by
      funext r
      rw [hkL u hu r.ev]
    have hany : (evs.any
        (fun e => ((if e.userId == JVal.null then none else some e.userId) == some u))) =
        (evs.any (fun e => e.userId == u)) := by
      congr 1
      funext e
      rw [hkL u hu e]
    calc (LogTraffic.mainFinalize evs).countP
          (fun r => (r.isLastReq == 1) && (r.ev.userId == u))
        = (LogTraffic.mainFinalize evs).countP
            (fun r => (r.isLastReq == 1) &&
              ((if r.ev.userId == JVal.null then none else some r.ev.userId) == some u)) := by
          rw [hpred]
      _ = if (evs.any
            (fun e => ((if e.userId == JVal.null then none else some e.userId) == some u))) = true
          then 1 else 0 :=
        finalizeEvents_countP
          (fun (e : LogTraffic.Event) => if e.userId == JVal.null then none else some e.userId)
          (fun e => e.ts) _ u
      _ = _ := by rw [hany]
  · intro evs
    refine (finalizeEvents_rightmost
      (fun e => if e.userId == JVal.null then none else some e.userId)
      (fun e => e.ts) evs).imp ?_
    intro r1 r2 h hm hnull huid
    have h1 : (r1.ev.userId == JVal.null) = false := by
      simp [hnull]
    refine h r1.ev.userId hm ?_ ?_
    · simp [h1]
    · rw [← huid]
      simp [h1]

/-- C1, witness: the amended statement applied to concrete inputs. -/
theorem claim_C1_witness :
    List.Pairwise (fun r1 r2 => r1.ev.ts ≤ r2.ev.ts) (Pplmag.mainFinalize Fx.exC1pp) ∧
    ((Pplmag.mainFinalize Fx.exC1pp).countP
        (fun r => (r.isLastReq == 1) && (r.ev.userId == JVal.str "a"))) = 1 ∧
    ((LogTraffic.mainFinalize Fx.exC1).countP
        (fun r => (r.isLastReq == 1) && (r.ev.userId == JVal.str "a"))) = 1 := by
  refine ⟨claim_C1.1 Fx.exC1pp, ?_, ?_⟩
  · rw [claim_C1.2.1 Fx.exC1pp (JVal.str "a") (by decide)]
    decide
  · rw [claim_C1.2.2.2.2.2.1 Fx.exC1 (JVal.str "a") (by decide)]
    decide

/-- C3: in every finalized stream — the output passes of
log_traffic_extractor.py and pplmag_extractor.py and the output of
merge_traffic.py — consecutive records satisfy
`delayMs[i] = max(0, ts[i+1] - ts[i])`, the last record has
`delayMs = 0`, and consequently no record has a negative delay. -/
theorem claim_C3 :
    ((∀ (evs : List LogTraffic.Event) (i : Nat) (r r2 : Finalized LogTraffic.Event),
        (LogTraffic.mainFinalize evs)[i]? = some r →
        (LogTraffic.mainFinalize evs)[i + 1]? = some r2 →
        r.delayMs = max 0 (r2.ev.ts - r.ev.ts)) ∧
      (∀ (evs : List LogTraffic.Event) (r : Finalized LogTraffic.Event),
        (LogTraffic.mainFinalize evs).getLast? = some r → r.delayMs = 0) ∧
      (∀ (evs : List LogTraffic.Event) (r : Finalized LogTraffic.Event),
        r ∈ LogTraffic.mainFinalize evs → 0 ≤ r.delayMs)) ∧
    ((∀ (evs : List Pplmag.Event) (i : Nat) (r r2 : Finalized Pplmag.Event),
        (Pplmag.mainFinalize evs)[i]? = some r →
        (Pplmag.mainFinalize evs)[i + 1]? = some r2 →
        r.delayMs = max 0 (r2.ev.ts - r.ev.ts)) ∧
      (∀ (evs : List Pplmag.Event) (r : Finalized Pplmag.Event),
        (Pplmag.mainFinalize evs).getLast? = some r → r.delayMs = 0) ∧
      (∀ (evs : List Pplmag.Event) (r : Finalized Pplmag.Event),
        r ∈ Pplmag.mainFinalize evs → 0 ≤ r.delayMs)) ∧
    ((∀ (lines : List (Option Merge.MRec)) (i : Nat) (r r2 : Merge.MRec),
        (Merge.merge_and_sort lines)[i]? = some r →
        (Merge.merge_and_sort lines)[i + 1]? = some r2 →
        r.delayMs? = some (max 0 (Merge.tsKey r2 - Merge.tsKey r))) ∧
      (∀ (lines : List (Option Merge.MRec)) (r : Merge.MRec),
        (Merge.merge_and_sort lines).getLast? = some r → r.delayMs? = some 0) ∧
      (∀ (lines : List (Option Merge.MRec)) (r : Merge.MRec),
        r ∈ Merge.merge_and_sort lines → ∃ d, r.delayMs? = some d ∧ 0 ≤ d)) := by
  refine ⟨⟨?_, ?_, ?_⟩, ⟨?_, ?_, ?_⟩, ⟨?_, ?_, ?_⟩⟩
  · intro evs i r r2 h1 h2
    exact attachDelays_delay _ _ i r r2 h1 h2
  · intro evs r h
    exact attachDelays_last _ _ r h
  · intro evs r h
    exact attachDelays_nonneg _ _ r h
  · intro evs i r r2 h1 h2
    exact attachDelays_delay _ _ i r r2 h1 h2
  · intro evs r h
    exact attachDelays_last _ _ r h
  · intro evs r h
    exact attachDelays_nonneg _ _ r h
  · intro lines i r r2 h1 h2
    exact Merge.setDelays_delay _ i r r2 h1 h2
  · intro lines r h
    exact Merge.setDelays_last _ r h
  · intro lines r h
    exact Merge.setDelays_nonneg _ r h

/-- C3, witness: the delay equations applied to concrete streams. -/
theorem claim_C3_witness :
    ((⟨⟨2, "/crossword", JVal.str "a"⟩, 0, 0⟩ : Finalized LogTraffic.Event).delayMs =
      max 0 ((⟨⟨1, "/crossword", JVal.str "a"⟩, 0, 1⟩ : Finalized LogTraffic.Event).ev.ts -
        (⟨⟨2, "/crossword", JVal.str "a"⟩, 0, 0⟩ : Finalized LogTraffic.Event).ev.ts)) ∧
    ((⟨⟨2, "/crossword", "GET", JVal.str "a"⟩, 0, 1⟩ : Finalized Pplmag.Event).delayMs = 0) ∧
    (∃ d, (⟨some 1, some 0, []⟩ : Merge.MRec).delayMs? = some d ∧ 0 ≤ d) := by
  refine ⟨?_, ?_, ?_⟩
  · exact claim_C3.1.1 Fx.exC1 0
      ⟨⟨2, "/crossword", JVal.str "a"⟩, 0, 0⟩
      ⟨⟨1, "/crossword", JVal.str "a"⟩, 0, 1⟩ (by decide) (by decide)
  · exact claim_C3.2.1.2.1 [⟨2, "/crossword", "GET", JVal.str "a"⟩]
      ⟨⟨2, "/crossword", "GET", JVal.str "a"⟩, 0, 1⟩
      (by simp [Pplmag.mainFinalize, finalizeEvents, markLastAux, attachDelays,
        JVal.truthy])
  · exact claim_C3.2.2.2.2 [some ⟨some 1, some 7, []⟩]
      ⟨some 1, some 0, []⟩
      (by simp [Merge.merge_and_sort, Merge.setDelays])

theorem mergeSort_tsKey_pairwise (l : List Merge.MRec) :
    List.Pairwise (fun a b => Merge.tsKey a ≤ Merge.tsKey b)
      (l.mergeSort (fun a b => decide (Merge.tsKey a ≤ Merge.tsKey b))) := by
  have htrans : ∀ (a b c : Merge.MRec), decide (Merge.tsKey a ≤ Merge.tsKey b) = true →
      decide (Merge.tsKey b ≤ Merge.tsKey c) = true →
      decide (Merge.tsKey a ≤ Merge.tsKey c) = true := by
    intro a b c h1 h2
    simp only [decide_eq_true_eq] at h1 h2 ⊢
    omega
  have htot : ∀ (a b : Merge.MRec),
      (decide (Merge.tsKey a ≤ Merge.tsKey b) || decide (Merge.tsKey b ≤ Merge.tsKey a)) = true := by
    intro a b
    simp only [Bool.or_eq_true, decide_eq_true_eq]
    omega
  exact (List.sorted_mergeSort htrans htot l).imp (fun h => of_decide_eq_true h)

theorem setDelays_pairwise_tsKey (l : List Merge.MRec)
    (h : List.Pairwise (fun a b => Merge.tsKey a ≤ Merge.tsKey b) l) :
    List.Pairwise (fun a b => Merge.tsKey a ≤ Merge.tsKey b) (Merge.setDelays l) := by
  have hmap := Merge.setDelays_map_tsKey l
  have h2 : List.Pairwise (fun (a b : Int) => a ≤ b) ((Merge.setDelays l).map Merge.tsKey) := by
    rw [hmap]
    exact (List.pairwise_map).mpr h
  exact (List.pairwise_map).mp h2

/-- C8: the merger's output is exactly the parseable input records
(unparseable lines skipped), stable-sorted ascending by the `ts` key,
and each output record is the corresponding input record with only
`delayMs` changed — `ts` and every other field (`extra`, which includes
`isLastReq`) are untouched, so last-request marking is not recomputed. -/
theorem claim_C8 (lines : List (Option Merge.MRec)) :
    ((Merge.merge_and_sort lines).map Merge.strip).Perm
        (((lines.filterMap id)).map Merge.strip) ∧
    List.Pairwise (fun a b => Merge.tsKey a ≤ Merge.tsKey b)
        (Merge.merge_and_sort lines) ∧
    (Merge.merge_and_sort lines).length = (lines.filterMap id).length ∧
    (∀ (i : Nat) (r s : Merge.MRec),
      (Merge.merge_and_sort lines)[i]? = some r →
      ((lines.filterMap id).mergeSort
        (fun a b => decide (Merge.tsKey a ≤ Merge.tsKey b)))[i]? = some s →
      r.ts? = s.ts? ∧ r.extra = s.extra) := by
  refine ⟨?_, ?_, ?_, ?_⟩
  · rw [show Merge.merge_and_sort lines = Merge.setDelays
      ((lines.filterMap id).mergeSort
        (fun a b => decide (Merge.tsKey a ≤ Merge.tsKey b))) from rfl]
    rw [Merge.setDelays_map_strip]
    exact (List.mergeSort_perm (lines.filterMap id) _).map Merge.strip
  · exact setDelays_pairwise_tsKey _ (mergeSort_tsKey_pairwise _)
  · rw [show Merge.merge_and_sort lines = Merge.setDelays
      ((lines.filterMap id).mergeSort
        (fun a b => decide (Merge.tsKey a ≤ Merge.tsKey b))) from rfl]
    rw [Merge.setDelays_length, List.length_mergeSort]
  · intro i r s h1 h2
    have hmap := Merge.setDelays_map_strip
      ((lines.filterMap id).mergeSort (fun a b => decide (Merge.tsKey a ≤ Merge.tsKey b)))
    have h3 : ((Merge.merge_and_sort lines).map Merge.strip)[i]? =
        some (Merge.strip r) := by
      rw [List.getElem?_map, h1]
      rfl
    have h4 : ((((lines.filterMap id)).mergeSort
        (fun a b => decide (Merge.tsKey a ≤ Merge.tsKey b))).map Merge.strip)[i]? =
        some (Merge.strip s) := by
      rw [List.getElem?_map, h2]
      rfl
    rw [show (Merge.merge_and_sort lines).map Merge.strip =
      (((lines.filterMap id)).mergeSort
        (fun a b => decide (Merge.tsKey a ≤ Merge.tsKey b))).map Merge.strip from hmap] at h3
    rw [h3] at h4
    have h5 : Merge.strip r = Merge.strip s := by
      injection h4
    exact ⟨congrArg Prod.fst h5, congrArg Prod.snd h5⟩

/-- C8, witness: the frame statement applied to a concrete stream. -/
theorem claim_C8_witness :
    (⟨some 1, some 0, [("isLastReq", JVal.num 1)]⟩ : Merge.MRec).ts? =
        (⟨some 1, some 7, [("isLastReq", JVal.num 1)]⟩ : Merge.MRec).ts? ∧
    (⟨some 1, some 0, [("isLastReq", JVal.num 1)]⟩ : Merge.MRec).extra =
        (⟨some 1, some 7, [("isLastReq", JVal.num 1)]⟩ : Merge.MRec).extra :=
  (claim_C8 [some ⟨some 1, some 7, [("isLastReq", JVal.num 1)]⟩]).2.2.2 0
    ⟨some 1, some 0, [("isLastReq", JVal.num 1)]⟩
    ⟨some 1, some 7, [("isLastReq", JVal.num 1)]⟩
    (by simp [Merge.merge_and_sort, Merge.setDelays])
    (by simp)

/-- C9: merging is associative and order-independent on the set of
input events: merging A with B then with C yields the same sorted
sequence of records (up to the relative order of equal-ts records), the
same ts sequence and the same recomputed delayMs sequence as merging B
with C then with A. -/
theorem claim_C9 (A B C : List Merge.MRec) :
    ((Merge.mergeTwo (Merge.mergeTwo A B) C).map Merge.strip).Perm
        ((Merge.mergeTwo (Merge.mergeTwo B C) A).map Merge.strip) ∧
    (Merge.mergeTwo (Merge.mergeTwo A B) C).map Merge.tsKey =
        (Merge.mergeTwo (Merge.mergeTwo B C) A).map Merge.tsKey ∧
    (Merge.mergeTwo (Merge.mergeTwo A B) C).map (fun r => r.delayMs?) =
        (Merge.mergeTwo (Merge.mergeTwo B C) A).map (fun r => r.delayMs?) ∧
    List.Pairwise (fun a b => Merge.tsKey a ≤ Merge.tsKey b)
        (Merge.mergeTwo (Merge.mergeTwo A B) C) ∧
    List.Pairwise (fun a b => Merge.tsKey a ≤ Merge.tsKey b)
        (Merge.mergeTwo (Merge.mergeTwo B C) A) := by
  have hstrip : ∀ (X Y : List Merge.MRec),
      ((Merge.mergeTwo X Y).map Merge.strip).Perm
        (X.map Merge.strip ++ Y.map Merge.strip) := by
    intro X Y
    rw [show Merge.mergeTwo X Y = Merge.setDelays
      ((X ++ Y).mergeSort (fun a b => decide (Merge.tsKey a ≤ Merge.tsKey b))) from rfl]
    rw [Merge.setDelays_map_strip, ← List.map_append]
    exact (List.mergeSort_perm (X ++ Y) _).map Merge.strip
  have hperm : ((Merge.mergeTwo (Merge.mergeTwo A B) C).map Merge.strip).Perm
      ((Merge.mergeTwo (Merge.mergeTwo B C) A).map Merge.strip) := by
    refine ((hstrip _ C).trans ?_).trans (hstrip _ A).symm
    have h1 : ((Merge.mergeTwo A B).map Merge.strip ++ C.map Merge.strip).Perm
        ((A.map Merge.strip ++ B.map Merge.strip) ++ C.map Merge.strip) :=
      (hstrip A B).append_right _
    have h2 : ((Merge.mergeTwo B C).map Merge.strip ++ A.map Merge.strip).Perm
        ((B.map Merge.strip ++ C.map Merge.strip) ++ A.map Merge.strip) :=
      (hstrip B C).append_right _
    refine h1.trans (.trans ?_ h2.symm)
    rw [List.append_assoc]
    exact List.perm_append_comm
  have hsort1 : List.Pairwise (fun a b => Merge.tsKey a ≤ Merge.tsKey b)
      (Merge.mergeTwo (Merge.mergeTwo A B) C) :=
    setDelays_pairwise_tsKey _ (mergeSort_tsKey_pairwise _)
  have hsort2 : List.Pairwise (fun a b => Merge.tsKey a ≤ Merge.tsKey b)
      (Merge.mergeTwo (Merge.mergeTwo B C) A) :=
    setDelays_pairwise_tsKey _ (mergeSort_tsKey_pairwise _)
  have hkey : (Merge.mergeTwo (Merge.mergeTwo A B) C).map Merge.tsKey =
      (Merge.mergeTwo (Merge.mergeTwo B C) A).map Merge.tsKey := by
    have hpermk : ((Merge.mergeTwo (Merge.mergeTwo A B) C).map Merge.tsKey).Perm
        ((Merge.mergeTwo (Merge.mergeTwo B C) A).map Merge.tsKey) := by
      have := hperm.map (fun (p : Option Int × List (String × JVal)) => p.1.getD 0)
      simpa [Function.comp, Merge.strip, Merge.tsKey] using this
    refine @List.eq_of_perm_of_sorted Int (fun a b => a ≤ b) _ _ _ hpermk ?_ ?_
    · exact (List.pairwise_map).mpr hsort1
    · exact (List.pairwise_map).mpr hsort2
  refine ⟨hperm, hkey, ?_, hsort1, hsort2⟩
  have hd1 : (Merge.mergeTwo (Merge.mergeTwo A B) C).map (fun r => r.delayMs?) =
      (delaysOf ((Merge.mergeTwo (Merge.mergeTwo A B) C).map Merge.tsKey)).map some := by
    rw [show Merge.mergeTwo (Merge.mergeTwo A B) C = Merge.setDelays
      (((Merge.mergeTwo A B) ++ C).mergeSort
        (fun a b => decide (Merge.tsKey a ≤ Merge.tsKey b))) from rfl]
    rw [Merge.setDelays_map_delay, Merge.setDelays_map_tsKey]
  have hd2 : (Merge.mergeTwo (Merge.mergeTwo B C) A).map (fun r => r.delayMs?) =
      (delaysOf ((Merge.mergeTwo (Merge.mergeTwo B C) A).map Merge.tsKey)).map some := by
    rw [show Merge.mergeTwo (Merge.mergeTwo B C) A = Merge.setDelays
      (((Merge.mergeTwo B C) ++ A).mergeSort
        (fun a b => decide (Merge.tsKey a ≤ Merge.tsKey b))) from rfl]
    rw [Merge.setDelays_map_delay, Merge.setDelays_map_tsKey]
  rw [hd1, hd2, hkey]

theorem strptimeLogTs_pos :
    ∀ (s : String) (v : Int), strptimeLogTs s = some v → 0 < v := by
  intro s v h
  unfold strptimeLogTs at h
  simp only [bind, Option.bind_eq_some] at h
  obtain ⟨⟨day, r1⟩, hday, h⟩ := h
  obtain ⟨r2, hr2, h⟩ := h
  obtain ⟨⟨mon, r3⟩, hmon, h⟩ := h
  obtain ⟨r4, hr4, h⟩ := h
  obtain ⟨⟨hh, r5⟩, hhh, h⟩ := h
  obtain ⟨r6, hr6, h⟩ := h
  obtain ⟨⟨mm, r7⟩, hmm, h⟩ := h
  obtain ⟨r8, hr8, h⟩ := h
  obtain ⟨⟨ss, r9⟩, hss, h⟩ := h
  obtain ⟨r10, hr10, h⟩ := h
  split at h
  · exact absurd h (by simp)
  split at h
  · exact absurd h (by simp)
  split at h
  · exact absurd h (by simp)
  split at h
  · exact absurd h (by simp)
  split at h
  · exact absurd h (by simp)
  injection h with h
  dsimp only at h
  have h1 : 20089 ≤ epochDay2025 mon day := by
    unfold epochDay2025
    omega
  have h2 : (0 : Int) ≤ ((digitsToNat (r10.takeWhile Char.isDigit)) *
      10 ^ (6 - (r10.takeWhile Char.isDigit).length) / 1000 : Nat) := by
    exact Int.ofNat_nonneg _
  omega

/-- C4, counterexample: log_distiller.py does not treat the sentinel 0
as "discard": a matched line whose timestamp does not parse (`Xyz` is
not a month) but whose payload has a userId is emitted as a record with
`ts = 0`. -/
theorem claim_C4_counterexample :
    strptimeLogTs "21 Xyz 00:00:00.134" = none ∧
    Distiller.parse_log_timestamp "21 Xyz 00:00:00.134" = 0 ∧
    Distiller.process_line_matched Fx.distGroups =
      some ⟨0, "/api/v1/plays", .str "u1", .str "", .str "",
        .obj [("userId", .str "u1")]⟩ := by
  refine ⟨by decide, by decide, by decide⟩

/-- C4, amended: `parse_log_timestamp` is total and returns the
sentinel 0 on any parse error, and a successful parse is never 0 (the
fixed year 2025 keeps every valid epoch value positive).  The two
extractors discard any record whose parsed timestamp is 0, but
log_distiller.py does not: it emits records with `ts = 0` (see the
counterexample). -/
theorem claim_C4 :
    (∀ s : String, strptimeLogTs s = none →
      LogTraffic.parse_log_timestamp s = 0 ∧ Pplmag.parse_log_timestamp s = 0 ∧
      Distiller.parse_log_timestamp s = 0) ∧
    (∀ (s : String) (v : Int), strptimeLogTs s = some v →
      LogTraffic.parse_log_timestamp s = v ∧ 0 < v) ∧
    (∀ (g : LogTraffic.LogGroups) (line : String) (ev : LogTraffic.Event),
      LogTraffic.process_line_matched g line = some ev → ev.ts ≠ 0) ∧
    (∀ (g : Pplmag.LogGroups) (line : String) (ev : Pplmag.Event),
      Pplmag.process_line_matched g line = some ev → ev.ts ≠ 0) := by
  refine ⟨?_, ?_, ?_, ?_⟩
  · intro s h
    refine ⟨?_, ?_, ?_⟩ <;>
      simp [LogTraffic.parse_log_timestamp, Pplmag.parse_log_timestamp,
        Distiller.parse_log_timestamp, h]
  · intro s v h
    constructor
    · simp [LogTraffic.parse_log_timestamp, h]
    · exact strptimeLogTs_pos s v h
  · intro g line ev h
    simp only [LogTraffic.process_line_matched] at h
    repeat' split at h
    all_goals first
      | exact Option.noConfusion h
      | (injection h with h; rw [← h]; simp_all)
  · intro g line ev h
    simp only [Pplmag.process_line_matched] at h
    repeat' split at h
    all_goals first
      | exact Option.noConfusion h
      | (injection h with h; rw [← h]; simp_all)

/-- C4, witness: the sentinel behaviour applied to concrete inputs. -/
theorem claim_C4_witness :
    LogTraffic.parse_log_timestamp "not a timestamp" = 0 ∧
    LogTraffic.parse_log_timestamp "21 Dec 00:00:00.134" = 1766275200134 ∧
    (0 : Int) < 1766275200134 := by
  refine ⟨(claim_C4.1 "not a timestamp" (by decide)).1, ?_, ?_⟩
  · exact (claim_C4.2.1 "21 Dec 00:00:00.134" 1766275200134 (by decide)).1
  · exact (by decide)

theorem lt_pps_eval (g : LogTraffic.LogGroups) (line : String)
    (h1 : g.service = "LoggingFilter") (h2 : g.servlet ≠ "ErrorServlet")
    (h3 : g.endpoint = "/postPickerStatus")
    (h4 : LogTraffic.parse_log_timestamp g.tsStr ≠ 0) :
    LogTraffic.process_line_matched g line =
      (match LogTraffic.extract_load_token line with
       | some tok =>
         match LogTraffic.decode_load_token_uid tok with
         | some u =>
           some ⟨LogTraffic.parse_log_timestamp g.tsStr, "/postPickerStatus", .str u⟩
         | none => none
       | none => none) := by
  have h2b : (g.servlet == "ErrorServlet") = false := by
    simp [h2]
  have h4b : ((LogTraffic.parse_log_timestamp g.tsStr) == 0) = false := by
    simp [h4]
  have hA : (LogTraffic.ALLOWED_ENDPOINTS.contains "/postPickerStatus") = true := by decide
  have hG : (LogTraffic.GAME_ENDPOINTS.contains "/postPickerStatus") = false := by decide
  simp only [LogTraffic.process_line_matched, h1, h3, h2b, h4b, hA, hG,
    bne_self_eq_false, Bool.not_false, Bool.not_true, if_false, if_true,
    beq_self_eq_true]
  simp

/-- C5, counterexample: a matched POST `/postPickerStatus` line whose
only identifier is a bare JSON `userId` field (no loadToken at all) is
retained by pplmag_extractor.py with that bare identifier, while
log_traffic_extractor.py drops the same line. -/
theorem claim_C5_counterexample :
    searchQuotedField "loadToken" Fx.ppsLine = none ∧
    Pplmag.process_line_matched Fx.ppsGroups Fx.ppsLine =
      some ⟨1766275208220, "/postPickerStatus", "POST", .str "bareuser"⟩ ∧
    LogTraffic.process_line_matched
      ⟨"21 Dec 00:00:08.220", "LoggingFilter", "PickerServlet", "/postPickerStatus", "POST"⟩
      Fx.ppsLine = none := by
  refine ⟨by decide, by decide, by decide⟩

/-- C5, amended: log_traffic_extractor.py retains a matched
`/postPickerStatus` line iff a userId can be recovered by decoding the
loadToken (a bare field is never used there); pplmag_extractor.py
instead tries a bare JSON `userId` field first for POST lines and
retains the event on it, using the token decode only as a fallback. -/
theorem claim_C5 :
    (∀ (g : LogTraffic.LogGroups) (line : String),
      g.service = "LoggingFilter" → g.servlet ≠ "ErrorServlet" →
      g.endpoint = "/postPickerStatus" →
      LogTraffic.parse_log_timestamp g.tsStr ≠ 0 →
      ((LogTraffic.process_line_matched g line).isSome = true ↔
        ∃ tok u, LogTraffic.extract_load_token line = some tok ∧
          LogTraffic.decode_load_token_uid tok = some u)) ∧
    (∀ (g : LogTraffic.LogGroups) (line : String) (tok u : String),
      g.service = "LoggingFilter" → g.servlet ≠ "ErrorServlet" →
      g.endpoint = "/postPickerStatus" →
      LogTraffic.parse_log_timestamp g.tsStr ≠ 0 →
      LogTraffic.extract_load_token line = some tok →
      LogTraffic.decode_load_token_uid tok = some u →
      LogTraffic.process_line_matched g line =
        some ⟨LogTraffic.parse_log_timestamp g.tsStr, "/postPickerStatus", .str u⟩) ∧
    (∀ (g : Pplmag.LogGroups) (line : String) (u : String),
      g.endpoint = "/postPickerStatus" → g.method = "POST" →
      Pplmag.parse_log_timestamp g.tsStr ≠ 0 →
      searchQuotedField "userId" line = some u →
      Pplmag.process_line_matched g line =
        some ⟨Pplmag.parse_log_timestamp g.tsStr, "/postPickerStatus", "POST", .str u⟩) := by
  refine ⟨?_, ?_, ?_⟩
  · intro g line h1 h2 h3 h4
    rw [lt_pps_eval g line h1 h2 h3 h4]
    cases hlt : LogTraffic.extract_load_token line with
    | none => simp [hlt]
    | some tok =>
      cases hdec : LogTraffic.decode_load_token_uid tok with
      | none => simp [hlt, hdec]
      | some u =>
        constructor
        · intro _
          exact ⟨tok, u, rfl, hdec⟩
        · intro _
          simp [hdec]
  · intro g line tok u h1 h2 h3 h4 hlt hdec
    rw [lt_pps_eval g line h1 h2 h3 h4, hlt]
    simp [hdec]
  · intro g line u h1 h2 h3 h4
    have h3b : ((Pplmag.parse_log_timestamp g.tsStr) == 0) = false := by
      simp [h3]
    have hA : (Pplmag.ALLOWED_ENDPOINTS.contains "/postPickerStatus") = true := by decide
    have hG : (Pplmag.GAME_ENDPOINTS.contains "/postPickerStatus") = false := by decide
    simp only [Pplmag.process_line_matched, Pplmag.extract_user_id, h1, h2, h3b, hA, hG,
      h4, beq_self_eq_true, if_true, if_false, Bool.not_false, Bool.not_true,
      Bool.true_or, Bool.or_true]
    simp

/-- C5, witness: the retention rules applied to a concrete line. -/
theorem claim_C5_witness :
    Pplmag.process_line_matched Fx.ppsGroups
        "x \x7b\"userId\":\"w1\"\x7d y" =
      some ⟨1766275208220, "/postPickerStatus", "POST", .str "w1"⟩ ∧
    ((LogTraffic.process_line_matched
        ⟨"21 Dec 00:00:08.220", "LoggingFilter", "PickerServlet", "/postPickerStatus", "POST"⟩
        "no token here").isSome = true ↔
      ∃ tok u, LogTraffic.extract_load_token "no token here" = some tok ∧
        LogTraffic.decode_load_token_uid tok = some u) := by
  constructor
  · have h := claim_C5.2.2 Fx.ppsGroups "x \x7b\"userId\":\"w1\"\x7d y" "w1"
      (by decide) (by decide) (by decide) (by decide)
    rw [h]
    decide
  · exact claim_C5.1
      ⟨"21 Dec 00:00:08.220", "LoggingFilter", "PickerServlet", "/postPickerStatus", "POST"⟩
      "no token here" (by decide) (by decide) (by decide) (by decide)

/-- C6, counterexample: a matched `/jigsaw` game-page line is dropped
entirely by log_traffic_extractor.py (its allow-list has no `/jigsaw`),
while pplmag_extractor.py rewrites the same line to `/crossword`. -/
theorem claim_C6_counterexample :
    LogTraffic.process_line_matched Fx.jigsawLtGroups Fx.jigsawLine = none ∧
    (Pplmag.process_line_matched Fx.jigsawPpGroups Fx.jigsawLine).map
        (fun e => e.endpoint) = some "/crossword" ∧
    ("/jigsaw" ∈ LogTraffic.ALLOWED_ENDPOINTS) = False := by
  refine ⟨by decide, by decide, by decide⟩

/-- C6, amended: every path outside an extractor's allow-list yields no
candidate event.  pplmag_extractor.py rewrites all eight game-family
paths (including `/jigsaw`) to `/crossword`; log_traffic_extractor.py
rewrites only its seven game paths — `/jigsaw` is absent from its
allow-list, so a `/jigsaw` line is dropped there, not rewritten. -/
theorem claim_C6 :
    (∀ (g : LogTraffic.LogGroups) (line : String),
      g.endpoint ∉ LogTraffic.ALLOWED_ENDPOINTS →
      LogTraffic.process_line_matched g line = none) ∧
    (∀ (g : Pplmag.LogGroups) (line : String),
      g.endpoint ∉ Pplmag.ALLOWED_ENDPOINTS →
      Pplmag.process_line_matched g line = none) ∧
    (∀ (g : Pplmag.LogGroups) (line : String),
      g.endpoint ∈ Pplmag.GAME_ENDPOINTS →
      Pplmag.parse_log_timestamp g.tsStr ≠ 0 →
      ∃ ev, Pplmag.process_line_matched g line = some ev ∧
        ev.endpoint = "/crossword") ∧
    (∀ (g : LogTraffic.LogGroups) (line : String),
      g.service = "LoggingFilter" → g.servlet ≠ "ErrorServlet" →
      g.endpoint ∈ LogTraffic.GAME_ENDPOINTS →
      LogTraffic.parse_log_timestamp g.tsStr ≠ 0 →
      LogTraffic.extract_user_id line ≠ .null →
      ∃ ev, LogTraffic.process_line_matched g line = some ev ∧
        ev.endpoint = "/crossword") ∧
    "/jigsaw" ∉ LogTraffic.ALLOWED_ENDPOINTS ∧
    "/jigsaw" ∈ Pplmag.GAME_ENDPOINTS ∧
    (∀ p, p ∈ LogTraffic.GAME_ENDPOINTS → p ∈ LogTraffic.ALLOWED_ENDPOINTS) ∧
    (∀ p, p ∈ Pplmag.GAME_ENDPOINTS → p ∈ Pplmag.ALLOWED_ENDPOINTS) := by
  refine ⟨?_, ?_, ?_, ?_, by decide, by decide, by decide, by decide⟩
  · intro g line h
    have hc : (!(LogTraffic.ALLOWED_ENDPOINTS.contains g.endpoint)) = true := by
      simp [h]
    unfold LogTraffic.process_line_matched
    repeat' split
    all_goals rfl
  · intro g line h
    have hc : (!(Pplmag.ALLOWED_ENDPOINTS.contains g.endpoint)) = true := by
      simp [h]
    unfold Pplmag.process_line_matched
    repeat' split
    all_goals rfl
  · intro g line hgame hts
    have hA : (Pplmag.ALLOWED_ENDPOINTS.contains g.endpoint) = true := by
      have hsub : ∀ p ∈ Pplmag.GAME_ENDPOINTS, p ∈ Pplmag.ALLOWED_ENDPOINTS := by decide
      simp [hsub g.endpoint hgame]
    have hG : (Pplmag.GAME_ENDPOINTS.contains g.endpoint) = true := by
      simp [hgame]
    have htsb : ((Pplmag.parse_log_timestamp g.tsStr) == 0) = false := by
      simp [hts]
    have hreq : (("/crossword" == "/api/v1/plays") || ("/crossword" == "/postPickerStatus")) = false := by
      decide
    refine ⟨⟨Pplmag.parse_log_timestamp g.tsStr, "/crossword", g.method,
      Pplmag.extract_user_id line g.method⟩, ?_, rfl⟩
    simp only [Pplmag.process_line_matched, hA, hG, htsb, hreq, Bool.not_true,
      if_false, if_true, Bool.false_and]
    simp
  · intro g line h1 h2 hgame hts huid
    have hA : (LogTraffic.ALLOWED_ENDPOINTS.contains g.endpoint) = true := by
      have hsub : ∀ p ∈ LogTraffic.GAME_ENDPOINTS, p ∈ LogTraffic.ALLOWED_ENDPOINTS := by
        decide
      simp [hsub g.endpoint hgame]
    have hG : (LogTraffic.GAME_ENDPOINTS.contains g.endpoint) = true := by
      simp [hgame]
    have htsb : ((LogTraffic.parse_log_timestamp g.tsStr) == 0) = false := by
      simp [hts]
    have h2b : (g.servlet == "ErrorServlet") = false := by
      simp [h2]
    have huidb : ((LogTraffic.extract_user_id line == JVal.null)) = false := by
      simp [huid]
    refine ⟨⟨LogTraffic.parse_log_timestamp g.tsStr, "/crossword",
      LogTraffic.extract_user_id line⟩, ?_, rfl⟩
    have hcw : (("/crossword" == "/postPickerStatus") : Bool) = false := by decide
    simp only [LogTraffic.process_line_matched, h1, h2b, hA, hG, htsb, huidb, hcw,
      bne_self_eq_false, Bool.not_false, Bool.not_true, if_false, if_true]
    simp

/-- C6, witness: normalization and allow-list filtering on concrete
matched lines. -/
theorem claim_C6_witness :
    LogTraffic.process_line_matched
      ⟨"21 Dec 00:00:08.220", "LoggingFilter", "Srv", "/not-allowed", "GET"⟩
      "x" = none ∧
    (∃ ev, Pplmag.process_line_matched Fx.jigsawPpGroups Fx.jigsawLine = some ev ∧
      ev.endpoint = "/crossword") ∧
    (∃ ev, LogTraffic.process_line_matched
      ⟨"21 Dec 00:00:08.220", "LoggingFilter", "GameServlet", "/sudoku", "GET"⟩
      Fx.jigsawLine = some ev ∧ ev.endpoint = "/crossword") := by
  refine ⟨?_, ?_, ?_⟩
  · exact claim_C6.1
      ⟨"21 Dec 00:00:08.220", "LoggingFilter", "Srv", "/not-allowed", "GET"⟩ "x"
      (by decide)
  · exact claim_C6.2.2.1 Fx.jigsawPpGroups Fx.jigsawLine (by decide) (by decide)
  · exact claim_C6.2.2.2.1
      ⟨"21 Dec 00:00:08.220", "LoggingFilter", "GameServlet", "/sudoku", "GET"⟩
      Fx.jigsawLine (by decide) (by decide) (by decide) (by decide) (by decide)

/-! ### Inversion lemmas for the session flow -/

/-- `decoded_play.get(...)` never raises when the stored decoded play is
absent or a dict. -/
theorem getPlayDefault_ok (dp : Option JVal) (k : String) (d : JVal)
    (hdp : dp = none ∨ ∃ dk, dp = some (JVal.obj dk)) :
    ∃ v, Api.getPlayDefault dp k d = .ok v := by
  rcases hdp with rfl | ⟨dk, rfl⟩
  · exact ⟨d, rfl⟩
  · by_cases h : (JVal.obj dk).truthy = true
    · refine ⟨Distiller.pyGetD dk k d, ?_⟩
      simp [Api.getPlayDefault, h]
    · refine ⟨d, ?_⟩
      simp [Api.getPlayDefault, h]

/-- What a plays response looks like when its iteration succeeds. -/
theorem playsOk_inv (o : Api.HttpOut) (h : Api.playsOk o = true) :
    ∃ hr kvs, o = .ok hr ∧ hr.status < 400 ∧
      json_loads hr.body = some (JVal.obj kvs) ∧
      (JVal.objGet kvs "status").eqZero = true := by
  cases o with
  | transportErr => exact absurd h (by simp [Api.playsOk])
  | ok hr =>
    simp only [Api.playsOk, Bool.and_eq_true, decide_eq_true_eq] at h
    obtain ⟨h1, h2⟩ := h
    cases hj : json_loads hr.body with
    | none => rw [hj] at h2; exact absurd h2 (by simp)
    | some v =>
      rw [hj] at h2
      cases v
      case obj kvs => exact ⟨hr, kvs, rfl, h1, hj, h2⟩
      all_goals exact absurd h2 (by simp)

/-- What a plays response looks like when its iteration fails with a
non-zero application status. -/
theorem playsFailData_inv (o : Api.HttpOut) (data : JVal)
    (h : Api.playsFailData o = some data) :
    ∃ hr kvs, o = .ok hr ∧ hr.status < 400 ∧
      json_loads hr.body = some (JVal.obj kvs) ∧
      (JVal.objGet kvs "status").eqZero = false ∧ data = JVal.obj kvs := by
  cases o with
  | transportErr => exact absurd h (by simp [Api.playsFailData])
  | ok hr =>
    unfold Api.playsFailData at h
    repeat' split at h
    all_goals first
      | exact Option.noConfusion h
      | (injection h with h
         rename_i hok h400 x kvs hj h0
         injection hok with hok
         subst hok
         exact ⟨hr, kvs, rfl, h400, hj, by simpa using h0, h.symm⟩)

/-- A key missing from a parsed JSON object reads as `None`. -/
theorem objGet_of_not_hasKey (kvs : List (String × JVal)) (k : String)
    (h : JVal.objHasKey kvs k = false) : JVal.objGet kvs k = .null := by
  unfold JVal.objGet
  have hf : kvs.reverse.find? (fun kv => kv.1 == k) = none := by
    rw [List.find?_eq_none]
    intro x hx
    rw [List.mem_reverse] at hx
    simp only [JVal.objHasKey, List.any_eq_false] at h
    simpa using h x hx
  rw [hf]

/-- The session context after a successful step 1 started from the
fresh state: uid set, a truthy load token and the params stored,
everything else untouched; exactly one request (the date-picker GET)
was issued. -/
theorem step1_ok_shape (env : Api.FlowEnv) (r1 : Api.Step1Res) (st1 : Api.St)
    (h : Api.step1_date_picker env Api.initSt = .ok (r1, st1)) :
    ∃ lt pj, st1.ctx = ⟨some env.uid, some lt, some pj, none, none, none, none⟩ ∧
      lt.truthy = true ∧ st1.callIdx = 1 ∧
      ∀ req ∈ st1.trace, req.endpoint = "date-picker" := by
  simp only [Api.step1_date_picker, Api.make_request, Api.initSt, Api.Ctx.empty] at h
  repeat' split at h
  all_goals first
    | exact Except.noConfusion h
    | (rename_i hlt
       injection h with h
       rw [Prod.mk.injEq] at h
       obtain ⟨hres, hstate⟩ := h
       subst hstate
       refine ⟨_, _, rfl, ?_, rfl, ?_⟩
       · simpa using hlt
       · intro req hreq
         simp only [List.nil_append, List.mem_singleton] at hreq
         subst hreq
         rfl)

/-- Step 2 issues one request and leaves the context unchanged. -/
theorem step2_ok_facts (env : Api.FlowEnv) (st1 : Api.St) (r2 : Api.Step2Res) (st2 : Api.St)
    (h : Api.step2_post_picker_status env st1 = .ok (r2, st2)) :
    st2.ctx = st1.ctx ∧ st2.callIdx = st1.callIdx + 1 ∧
      ∀ req ∈ st2.trace, req ∈ st1.trace ∨ req.endpoint = "postPickerStatus" := by
  simp only [Api.step2_post_picker_status, Api.make_request] at h
  repeat' split at h
  all_goals first
    | exact Except.noConfusion h
    | (injection h with h
       rw [Prod.mk.injEq] at h
       obtain ⟨hres, hstate⟩ := h
       subst hstate
       refine ⟨rfl, rfl, ?_⟩
       intro req hreq
       rw [List.mem_append] at hreq
       rcases hreq with hreq | hreq
       · exact Or.inl hreq
       · right
         rw [List.mem_singleton] at hreq
         subst hreq
         rfl)

/-- A successful step 3 presupposes a truthy load token and a non-empty
uid, preserves them, stores the hardcoded puzzle id, issues one request,
and leaves the decoded play either untouched or set to a decoded dict. -/
theorem step3_ok_facts (env : Api.FlowEnv) (st : Api.St) (r3 : Api.Step3Res) (st3 : Api.St)
    (h : Api.step3_load_crossword env st = .ok (r3, st3)) :
    (Api.ctxGetJ st.ctx.load_token).truthy = true ∧
    st.ctx.uid.getD "" ≠ "" ∧
    st3.ctx.load_token = st.ctx.load_token ∧
    st3.ctx.uid = st.ctx.uid ∧
    st3.ctx.puzzle_id = some Api.PUZZLE_ID ∧
    st3.callIdx = st.callIdx + 1 ∧
    (st3.ctx.decoded_play = st.ctx.decoded_play ∨
      ∃ dk, st3.ctx.decoded_play = some (JVal.obj dk)) ∧
    ∀ req ∈ st3.trace, req ∈ st.trace ∨ req.endpoint = "crossword" := by
  simp only [Api.step3_load_crossword, Api.make_request] at h
  cases hg : (!(Api.ctxGetJ st.ctx.load_token).truthy || st.ctx.uid.getD "" == "") with
  | true =>
    rw [hg] at h
    simp at h
  | false =>
    rw [hg] at h
    simp only [Bool.false_eq_true, if_false] at h
    simp only [Bool.or_eq_false_iff, Bool.not_eq_false', beq_eq_false_iff_ne] at hg
    repeat' split at h
    all_goals first
      | exact Except.noConfusion h
      | (injection h with h
         rw [Prod.mk.injEq] at h
         obtain ⟨hres, hstate⟩ := h
         subst hstate
         refine ⟨hg.1, hg.2, rfl, rfl, rfl, rfl, ?_, ?_⟩
         · first
           | exact Or.inl rfl
           | (right; exact ⟨_, rfl⟩)
         · intro req hreq
           rw [List.mem_append] at hreq
           rcases hreq with hreq | hreq
           · exact Or.inl hreq
           · right
             rw [List.mem_singleton] at hreq
             subst hreq
             rfl)

/-- When the first `m` plays responses succeed and the `(m+1)`-st fails
with a non-zero application status, the step-4 loop raises the
`playsFailed` ValueError for iteration `i + m + 1` and returns no
iteration list at all. -/
theorem step4Loop_fail (env : Api.FlowEnv) (lt : JVal) (uidV pid : String)
    (play_id : JVal) (dp : Option JVal)
    (hdp : dp = none ∨ ∃ dk, dp = some (JVal.obj dk)) (n : Nat) :
    ∀ (i : Nat) (prim sec : String) (acc : List Api.IterRes) (st : Api.St)
      (m : Nat) (data : JVal), m < n →
      (∀ j, j < m → Api.playsOk (env.resp (st.callIdx + j)) = true) →
      Api.playsFailData (env.resp (st.callIdx + m)) = some data →
      Api.step4Loop env lt uidV pid play_id dp n i prim sec acc st =
        .error (.valueExn (.playsFailed (i + m + 1) data)) := by
  induction n with
  | zero =>
    intro i prim sec acc st m data hm hok hfail
    exact absurd hm (Nat.not_lt_zero m)
  | succ n IH =>
    intro i prim sec acc st m data hm hok hfail
    obtain ⟨sv, hsv⟩ := getPlayDefault_ok dp "score" (.num 0) hdp
    obtain ⟨tv, htv⟩ := getPlayDefault_ok dp "timeOnPage" (.num 5000) hdp
    obtain ⟨uv, huv⟩ := getPlayDefault_ok dp "timeTaken" (.num 5) hdp
    cases m with
    | zero =>
      obtain ⟨hr, kvs, ho, h400, hjson, h0, hdata⟩ := playsFailData_inv _ _ hfail
      rw [Nat.add_zero] at ho
      subst hdata
      simp only [Api.step4Loop, Api.make_request, hsv, htv, huv, ho, hjson, h0,
        if_neg (Nat.not_le.mpr h400), Bool.not_false, if_true, Nat.add_zero]
    | succ m' =>
      obtain ⟨hr, kvs, ho, h400, hjson, h0⟩ := playsOk_inv _ (hok 0 (Nat.succ_pos m'))
      rw [Nat.add_zero] at ho
      have e1 : i + (m' + 1) + 1 = i + 1 + m' + 1 := by omega
      rw [e1]
      simp only [Api.step4Loop, Api.make_request, hsv, htv, huv, ho, hjson, h0,
        if_neg (Nat.not_le.mpr h400), Bool.not_true, Bool.false_eq_true, if_false]
      exact IH (i + 1) _ _ _ _ m' data (by omega)
        (fun j hj => by
          have hpl := hok (j + 1) (by omega)
          have e2 : st.callIdx + (j + 1) = st.callIdx + 1 + j := by omega
          rw [e2] at hpl
          exact hpl)
        (by
          have e3 : st.callIdx + (m' + 1) = st.callIdx + 1 + m' := by omega
          rw [e3] at hfail
          exact hfail)

/-- C2, counterexample to the claim as stated: in the `env5` session the
fifth play iteration fails, four iterations completed before it, yet the
result dict has NO `step4` entry at all — the iterations completed
before the failure are not reported. -/
theorem claim_C2_counterexample :
    Api.run_sequential_flow Fx.env5 =
      .ok ⟨some ⟨200, "vansh", 10⟩, some ⟨200, 20⟩, some ⟨200, "1461ef6d", 30⟩,
        none, false,
        some (.valueExn (.playsFailed 5 (JVal.obj [("status", JVal.num 1)])))⟩ := by
  decide

/-- C2, amended: when steps 1-3 succeed and the session fails at play
iteration k (1 ≤ k ≤ 10) because the server returns a non-zero status,
the result keeps the step-1..3 entries and carries the error tag for
iteration k, but reports NO step-4 iterations at all: `step4` is absent
from the results (the partial iteration list is discarded), rather than
listing the k-1 completed iterations as the spec claims. -/
theorem claim_C2 (env : Api.FlowEnv) (k : Nat)
    (r1 : Api.Step1Res) (st1 : Api.St) (r2 : Api.Step2Res) (st2 : Api.St)
    (r3 : Api.Step3Res) (st3 : Api.St) (data : JVal)
    (h1 : Api.step1_date_picker env Api.initSt = .ok (r1, st1))
    (h2 : Api.step2_post_picker_status env st1 = .ok (r2, st2))
    (h3 : Api.step3_load_crossword env st2 = .ok (r3, st3))
    (hk1 : 1 ≤ k) (hk2 : k ≤ 10)
    (hok : ∀ j, j < k - 1 → Api.playsOk (env.resp (st3.callIdx + j)) = true)
    (hfail : Api.playsFailData (env.resp (st3.callIdx + (k - 1))) = some data) :
    Api.run_sequential_flow env =
      .ok ⟨some r1, some r2, some r3, none, false,
        some (.valueExn (.playsFailed k data))⟩ := by
  obtain ⟨lt, pj, hctx1, hlt, hci1, htr1⟩ := step1_ok_shape env r1 st1 h1
  obtain ⟨hctx2, hci2, htr2⟩ := step2_ok_facts env st1 r2 st2 h2
  obtain ⟨hlt2, hu2, f3, f4, f5, f6, f7, f8⟩ := step3_ok_facts env st2 r3 st3 h3
  have huid' : env.uid ≠ "" := by
    rw [hctx2, hctx1] at hu2
    simpa using hu2
  have hglt : (Api.ctxGetJ st3.ctx.load_token).truthy = true := by
    rw [f3]
    exact hlt2
  have hgu : (st3.ctx.uid.getD "" == "") = false := by
    rw [f4, hctx2, hctx1]
    simpa using huid'
  have hgp : (st3.ctx.puzzle_id.getD "" == "") = false := by
    rw [f5]
    decide
  have hdp : st3.ctx.decoded_play = none ∨
      ∃ dk, st3.ctx.decoded_play = some (JVal.obj dk) := by
    rcases f7 with f7 | f7
    · left
      rw [f7, hctx2, hctx1]
    · exact Or.inr f7
  have hloop := step4Loop_fail env (Api.ctxGetJ st3.ctx.load_token)
    (st3.ctx.uid.getD "") (st3.ctx.puzzle_id.getD "")
    (st3.ctx.play_id.getD (.str "")) st3.ctx.decoded_play hdp 10 0
    env.initState.1 env.initState.2 [] st3 (k - 1) data (by omega) hok hfail
  have e : 0 + (k - 1) + 1 = k := by omega
  rw [e] at hloop
  have h4 : Api.step4_post_plays env st3 =
      .error (.valueExn (.playsFailed k data)) := by
    simp only [Api.step4_post_plays, hglt, hgu, hgp, Bool.not_true, Bool.false_or,
      Bool.or_self, Bool.false_eq_true, if_false]
    rw [hloop]
  unfold Api.run_sequential_flow
  simp only [Api.run_sequential_flow_traced, h1, h2, h3, h4, Except.map]

/-- C2, witness: the amended theorem applied to the concrete failing
session at iteration 5. -/
theorem claim_C2_witness :
    Api.run_sequential_flow Fx.env5 =
      .ok ⟨some Fx.fxA1.1, some Fx.fxA2.1, some Fx.fxA3.1, none, false,
        some (.valueExn (.playsFailed 5 (JVal.obj [("status", JVal.num 1)])))⟩ :=
  claim_C2 Fx.env5 5 Fx.fxA1.1 Fx.fxA1.2 Fx.fxA2.1 Fx.fxA2.2 Fx.fxA3.1 Fx.fxA3.2
    (JVal.obj [("status", JVal.num 1)])
    (by decide) (by decide) (by decide) (by decide) (by decide)
    (by decide) (by decide)

/-- With no decoded play stored, the step-4 loop raises nothing as long
as every plays response succeeds. -/
theorem step4Loop_none_noErr (env : Api.FlowEnv) (lt : JVal) (uidV pid : String)
    (play_id : JVal) (n : Nat) :
    ∀ (i : Nat) (prim sec : String) (acc : List Api.IterRes) (st : Api.St),
      (∀ j, j < n → Api.playsOk (env.resp (st.callIdx + j)) = true) →
      ∀ e, Api.step4Loop env lt uidV pid play_id none n i prim sec acc st ≠ .error e := by
  induction n with
  | zero =>
    intro i prim sec acc st hok e h
    exact Except.noConfusion h
  | succ n IH =>
    intro i prim sec acc st hok e h
    obtain ⟨hr, kvs, ho, h400, hjson, h0⟩ := playsOk_inv _ (hok 0 (Nat.succ_pos n))
    rw [Nat.add_zero] at ho
    simp only [Api.step4Loop, Api.getPlayDefault, Api.make_request, ho, hjson, h0,
      if_neg (Nat.not_le.mpr h400), Bool.not_true, Bool.false_eq_true, if_false] at h
    exact IH (i + 1) _ _ _ _ (fun j hj => by
        have hpl := hok (j + 1) (by omega)
        have e2 : st.callIdx + (j + 1) = st.callIdx + 1 + j := by omega
        rw [e2] at hpl
        exact hpl) e h

/-- With no decoded play stored, a completed step-4 loop appended one
iteration per remaining round and every request it recorded is a plays
POST whose payload carries the given playId and the default score 0,
timeOnPage 5000 and timeTaken 5. -/
theorem step4Loop_none_props (env : Api.FlowEnv) (lt : JVal) (uidV pid : String)
    (play_id : JVal) (n : Nat) :
    ∀ (i : Nat) (prim sec : String) (acc : List Api.IterRes) (st : Api.St)
      (acc2 : List Api.IterRes) (st2 : Api.St),
      Api.step4Loop env lt uidV pid play_id none n i prim sec acc st = .ok (acc2, st2) →
      acc2.length = acc.length + n ∧ st2.callIdx = st.callIdx + n ∧
      ∀ req ∈ st2.trace, req ∈ st.trace ∨
        (req.method = "POST" ∧ req.endpoint = "api/v1/plays" ∧
         ∃ pkvs, req.payload = some (JVal.obj pkvs) ∧
           JVal.objGet pkvs "playId" = play_id ∧
           JVal.objGet pkvs "score" = JVal.num 0 ∧
           JVal.objGet pkvs "timeOnPage" = JVal.num 5000 ∧
           JVal.objGet pkvs "timeTaken" = JVal.num 5) := by
  induction n with
  | zero =>
    intro i prim sec acc st acc2 st2 h
    injection h with h
    rw [Prod.mk.injEq] at h
    obtain ⟨ha, hs⟩ := h
    subst ha
    subst hs
    exact ⟨rfl, rfl, fun req hreq => Or.inl hreq⟩
  | succ n IH =>
    intro i prim sec acc st acc2 st2 h
    simp only [Api.step4Loop, Api.getPlayDefault, Api.make_request] at h
    repeat' split at h
    all_goals first
      | exact Except.noConfusion h
      | (obtain ⟨hlen, hci, htr⟩ := IH (i + 1) _ _ _ _ acc2 st2 h
         refine ⟨?_, ?_, ?_⟩
         · simp only [List.length_append, List.length_singleton] at hlen
           omega
         · have hci2 : st2.callIdx = st.callIdx + 1 + n := hci
           omega
         · intro req hreq
           rcases htr req hreq with hin | hP
           · simp only [List.mem_append, List.mem_singleton] at hin
             rcases hin with hin | rfl
             · exact Or.inl hin
             · exact Or.inr ⟨rfl, rfl, _, rfl, rfl, rfl, rfl, rfl⟩
           · exact Or.inr hP)

/-- `step4_post_plays` on a context with no decoded play: all ten
iterations run and every plays payload carries the stored playId
default `""` together with the default score/timeOnPage/timeTaken. -/
theorem step4_post_plays_none_ok (env : Api.FlowEnv) (st : Api.St)
    (hlt : (Api.ctxGetJ st.ctx.load_token).truthy = true)
    (hu : (st.ctx.uid.getD "" == "") = false)
    (hp : (st.ctx.puzzle_id.getD "" == "") = false)
    (hdp : st.ctx.decoded_play = none)
    (hpi : st.ctx.play_id = none)
    (hok : ∀ j, j < 10 → Api.playsOk (env.resp (st.callIdx + j)) = true) :
    ∃ r4 st4, Api.step4_post_plays env st = .ok (r4, st4) ∧
      r4.success = true ∧ r4.iterations.length = 10 ∧
      ∀ req ∈ st4.trace, req ∈ st.trace ∨
        (req.endpoint = "api/v1/plays" ∧
         ∃ pkvs, req.payload = some (JVal.obj pkvs) ∧
           JVal.objGet pkvs "playId" = JVal.str "" ∧
           JVal.objGet pkvs "score" = JVal.num 0 ∧
           JVal.objGet pkvs "timeOnPage" = JVal.num 5000 ∧
           JVal.objGet pkvs "timeTaken" = JVal.num 5) := by
  have hguard : (!(Api.ctxGetJ st.ctx.load_token).truthy || st.ctx.uid.getD "" == "" ||
      st.ctx.puzzle_id.getD "" == "") = false := by
    simp [hlt, hu, hp]
  cases hE : Api.step4Loop env (Api.ctxGetJ st.ctx.load_token) (st.ctx.uid.getD "")
      (st.ctx.puzzle_id.getD "") (st.ctx.play_id.getD (.str "")) st.ctx.decoded_play
      10 0 env.initState.1 env.initState.2 [] st with
  | error e =>
    rw [hdp] at hE
    exact absurd hE (step4Loop_none_noErr env _ _ _ _ 10 0 _ _ [] st hok e)
  | ok p =>
    obtain ⟨acc2, st4⟩ := p
    rw [hdp, hpi, Option.getD_none] at hE
    obtain ⟨hlen, hci, htr⟩ :=
      step4Loop_none_props env _ _ _ _ 10 0 _ _ [] st acc2 st4 hE
    refine ⟨⟨acc2, true⟩, st4, ?_, rfl, by simpa using hlen, ?_⟩
    · simp only [Api.step4_post_plays, hguard, Bool.false_eq_true, if_false]
      rw [hdp, hpi, Option.getD_none, hE]
    · intro req hreq
      rcases htr req hreq with hin | hP
      · exact Or.inl hin
      · exact Or.inr ⟨hP.2.1, hP.2.2⟩

/-- C10: if the puzzle page of step 3 contains a params block with no
rawp field, step 3 still succeeds with the hardcoded puzzle id and the
session runs all ten play iterations, every plays payload using playId
`""` and the defaults score 0, timeOnPage 5000, timeTaken 5 — a missing
play identifier is never an error at the puzzle-load step. -/
theorem claim_C10 (env : Api.FlowEnv)
    (r1 : Api.Step1Res) (st1 : Api.St) (r2 : Api.Step2Res) (st2 : Api.St)
    (hr3 : Api.HttpOk) (kvs3 : List (String × JVal))
    (h1 : Api.step1_date_picker env Api.initSt = .ok (r1, st1))
    (h2 : Api.step2_post_picker_status env st1 = .ok (r2, st2))
    (huid : env.uid ≠ "")
    (hresp : env.resp st2.callIdx = .ok hr3)
    (h400 : hr3.status < 400)
    (hparams : Api.extract_params_from_html hr3.body = some (JVal.obj kvs3))
    (hnorawp : JVal.objHasKey kvs3 "rawp" = false)
    (hplays : ∀ j, j < 10 → Api.playsOk (env.resp (st2.callIdx + 1 + j)) = true) :
    ∃ (r4 : Api.Step4Res) (st4 : Api.St),
      Api.run_sequential_flow_traced env =
        .ok (⟨some r1, some r2, some ⟨hr3.status, Api.PUZZLE_ID, hr3.latency⟩,
          some r4, true, none⟩, some st4) ∧
      r4.success = true ∧ r4.iterations.length = 10 ∧
      ∀ req ∈ st4.trace, req.endpoint = "api/v1/plays" →
        ∃ pkvs, req.payload = some (JVal.obj pkvs) ∧
          JVal.objGet pkvs "playId" = JVal.str "" ∧
          JVal.objGet pkvs "score" = JVal.num 0 ∧
          JVal.objGet pkvs "timeOnPage" = JVal.num 5000 ∧
          JVal.objGet pkvs "timeTaken" = JVal.num 5 := by
  obtain ⟨lt, pj, hctx1, hlt, hci1, htr1⟩ := step1_ok_shape env r1 st1 h1
  obtain ⟨hctx2, hci2, htr2⟩ := step2_ok_facts env st1 r2 st2 h2
  have hg : (!(Api.ctxGetJ st2.ctx.load_token).truthy || st2.ctx.uid.getD "" == "") = false := by
    rw [hctx2, hctx1]
    simp [Api.ctxGetJ, hlt, huid]
  have hrawp : (JVal.objGet kvs3 "rawp").truthy = false := by
    rw [objGet_of_not_hasKey kvs3 "rawp" hnorawp]
    rfl
  have h3 : Api.step3_load_crossword env st2 =
      .ok (⟨hr3.status, Api.PUZZLE_ID, hr3.latency⟩,
        ⟨⟨st2.ctx.uid, st2.ctx.load_token, st2.ctx.params_json, some Api.PUZZLE_ID,
          some (JVal.obj kvs3), st2.ctx.decoded_play, st2.ctx.play_id⟩,
         st2.callIdx + 1,
         st2.trace ++ [⟨"GET", "crossword",
           [("id", .str Api.PUZZLE_ID), ("set", .str "gandalf"),
            ("picker", .str "date-picker"),
            ("src", .str ("https://cdn-test.amuselabs.com/pmm/date-picker?set=gandalf&uid=" ++ st2.ctx.uid.getD "")),
            ("uid", .str (st2.ctx.uid.getD "")), ("loadToken", Api.ctxGetJ st2.ctx.load_token)],
           none⟩]⟩) := by
    simp only [Api.step3_load_crossword, Api.make_request, hg, Bool.false_eq_true,
      if_false, hresp, if_neg (Nat.not_le.mpr h400), hparams, hrawp]
  have hltA : (Api.ctxGetJ st2.ctx.load_token).truthy = true := by
    rw [hctx2, hctx1]
    simpa [Api.ctxGetJ] using hlt
  have huA : (st2.ctx.uid.getD "" == "") = false := by
    rw [hctx2, hctx1]
    simp [huid]
  have hdpA : st2.ctx.decoded_play = none := by
    rw [hctx2, hctx1]
  have hpiA : st2.ctx.play_id = none := by
    rw [hctx2, hctx1]
  obtain ⟨r4, st4, h4eq, hsucc, hlen10, htrace⟩ :=
    step4_post_plays_none_ok env
      ⟨⟨st2.ctx.uid, st2.ctx.load_token, st2.ctx.params_json, some Api.PUZZLE_ID,
        some (JVal.obj kvs3), st2.ctx.decoded_play, st2.ctx.play_id⟩,
       st2.callIdx + 1,
       st2.trace ++ [⟨"GET", "crossword",
         [("id", .str Api.PUZZLE_ID), ("set", .str "gandalf"),
          ("picker", .str "date-picker"),
          ("src", .str ("https://cdn-test.amuselabs.com/pmm/date-picker?set=gandalf&uid=" ++ st2.ctx.uid.getD "")),
          ("uid", .str (st2.ctx.uid.getD "")), ("loadToken", Api.ctxGetJ st2.ctx.load_token)],
         none⟩]⟩
      hltA huA (by simp [Api.PUZZLE_ID]) hdpA hpiA hplays
  refine ⟨r4, st4, ?_, hsucc, hlen10, ?_⟩
  · simp only [Api.run_sequential_flow_traced, h1, h2, h3, h4eq]
  · intro req hreq hend
    rcases htrace req hreq with hin | hP
    · exfalso
      simp only [List.mem_append, List.mem_singleton] at hin
      rcases hin with hin | rfl
      · rcases htr2 req hin with hin1 | hend2
        · have hend1 := htr1 req hin1
          exact absurd (hend1.symm.trans hend) (by decide)
        · exact absurd (hend2.symm.trans hend) (by decide)
      · exact absurd hend (by simp)
    · exact hP.2

/-- C10, witness: the concrete all-OK session whose crossword page has
no rawp field. -/
theorem claim_C10_witness :
    ∃ (r4 : Api.Step4Res) (st4 : Api.St),
      Api.run_sequential_flow_traced Fx.envOK =
        .ok (⟨some Fx.fxB1.1, some Fx.fxB2.1, some ⟨200, Api.PUZZLE_ID, 30⟩,
          some r4, true, none⟩, some st4) ∧
      r4.success = true ∧ r4.iterations.length = 10 ∧
      ∀ req ∈ st4.trace, req.endpoint = "api/v1/plays" →
        ∃ pkvs, req.payload = some (JVal.obj pkvs) ∧
          JVal.objGet pkvs "playId" = JVal.str "" ∧
          JVal.objGet pkvs "score" = JVal.num 0 ∧
          JVal.objGet pkvs "timeOnPage" = JVal.num 5000 ∧
          JVal.objGet pkvs "timeTaken" = JVal.num 5 :=
  claim_C10 Fx.envOK Fx.fxB1.1 Fx.fxB1.2 Fx.fxB2.1 Fx.fxB2.2
    ⟨200, Fx.html3, 30⟩ [("x", JVal.num 1)]
    (by decide) (by decide) (by decide) (by decide) (by decide) (by decide)
    (by decide) (by decide)

/-- `min(list)` exists exactly on non-empty latency lists. -/
theorem pyMin_isSome_iff (l : List ℚ) : (Api.pyMin l).isSome = true ↔ 0 < l.length := by
  cases l <;> simp [Api.pyMin]

theorem pyMax_isSome_iff (l : List ℚ) : (Api.pyMax l).isSome = true ↔ 0 < l.length := by
  cases l <;> simp [Api.pyMax]

/-- The average entry exists exactly on non-empty latency lists. -/
theorem avg_isSome_iff (l : List ℚ) :
    (if l.isEmpty then none else some (l.sum / (l.length : ℚ))).isSome = true ↔
      0 < l.length := by
  cases l <;> simp

/-- A collected wave item is successful exactly when its session flow
succeeded. -/
theorem itemSuccess_run (w t : Nat) (env : Api.FlowEnv) :
    Api.itemSuccess (match Api.run_sequential_flow env with
      | .ok r2 => Api.WaveItem.res (w + 1) t r2
      | .error e => Api.WaveItem.crashed (w + 1) t e) = Api.flowSucceeded env := by
  cases h : Api.run_sequential_flow env <;>
    simp [Api.itemSuccess, Api.flowSucceeded, h]

/-- The latency read out of a successful wave item is the session total
of its flow result. -/
theorem itemLatency_run (w t : Nat) (env : Api.FlowEnv)
    (hs : Api.flowSucceeded env = true) :
    (match (match Api.run_sequential_flow env with
      | .ok r2 => Api.WaveItem.res (w + 1) t r2
      | .error e => Api.WaveItem.crashed (w + 1) t e) with
     | Api.WaveItem.res _ _ r2 => Api.sessionTotalLatency r2
     | Api.WaveItem.crashed _ _ _ => 0) =
      Api.sessionTotalLatency (Api.flowResultD env) := by
  cases h : Api.run_sequential_flow env with
  | ok r2 => simp [Api.flowResultD, h]
  | error e => simp [Api.flowSucceeded, h] at hs

theorem sum_map_constNat (d r : Nat) : ((List.range d).map (fun _ => r)).sum = r * d := by
  induction d with
  | zero => simp
  | succ n IH =>
    rw [List.range_succ, List.map_append, List.sum_append]
    simp [IH, Nat.mul_succ, Nat.mul_comm]

/-- The step-4 loop appends exactly one iteration record per consumed
round whenever it completes. -/
theorem step4Loop_ok_length (env : Api.FlowEnv) (lt : JVal) (uidV pid : String)
    (play_id : JVal) (dp : Option JVal) (n : Nat) :
    ∀ (i : Nat) (prim sec : String) (acc : List Api.IterRes) (st : Api.St)
      (acc2 : List Api.IterRes) (st2 : Api.St),
      Api.step4Loop env lt uidV pid play_id dp n i prim sec acc st = .ok (acc2, st2) →
      acc2.length = acc.length + n := by
  induction n with
  | zero =>
    intro i prim sec acc st acc2 st2 h
    injection h with h
    rw [Prod.mk.injEq] at h
    obtain ⟨ha, hs⟩ := h
    subst ha
    rfl
  | succ n IH =>
    intro i prim sec acc st acc2 st2 h
    simp only [Api.step4Loop] at h
    repeat' split at h
    all_goals first
      | exact Except.noConfusion h
      | (have hlen := IH _ _ _ _ _ _ _ h
         simp only [List.length_append, List.length_singleton] at hlen
         omega)

/-- A completed step 4 always reports exactly ten iterations and
success. -/
theorem step4_ok_iterations (env : Api.FlowEnv) (st : Api.St)
    (r4 : Api.Step4Res) (st4 : Api.St)
    (h : Api.step4_post_plays env st = .ok (r4, st4)) :
    r4.iterations.length = 10 ∧ r4.success = true := by
  simp only [Api.step4_post_plays] at h
  repeat' split at h
  all_goals first
    | exact Except.noConfusion h
    | (rename_i results st2x hloop
       injection h with h
       rw [Prod.mk.injEq] at h
       obtain ⟨hres, hst⟩ := h
       subst hres
       refine ⟨?_, rfl⟩
       have hlen := step4Loop_ok_length env _ _ _ _ _ 10 0 _ _ [] st results st2x hloop
       simpa using hlen)

/-- A session counts as successful only if all four steps completed: the
traced run ends in the all-steps result, step 4 holds exactly ten
iterations, and the session total latency is the sum of the step-1..3
latencies plus the sum of the ten iteration latencies. -/
theorem flowSucceeded_inv (env : Api.FlowEnv) (h : Api.flowSucceeded env = true) :
    ∃ r1 r2 r3 r4 st4,
      Api.run_sequential_flow_traced env =
        .ok (⟨some r1, some r2, some r3, some r4, true, none⟩, some st4) ∧
      r4.iterations.length = 10 ∧
      Api.sessionTotalLatency (Api.flowResultD env) =
        r1.latency_ms + r2.latency_ms + r3.latency_ms +
          ((r4.iterations.map (fun (it : Api.IterRes) => it.latency_ms)).sum) := by
  unfold Api.flowSucceeded Api.run_sequential_flow at h
  cases hrt : Api.run_sequential_flow_traced env with
  | error e =>
    rw [hrt] at h
    simp [Except.map] at h
  | ok p =>
    have hrt0 := hrt
    rw [hrt] at h
    simp only [Except.map] at h
    unfold Api.run_sequential_flow_traced at hrt
    cases e1 : Api.step1_date_picker env Api.initSt with
    | error ex =>
      simp only [e1] at hrt
      cases ex with
      | uncaught u => exact Except.noConfusion hrt
      | requestExn =>
        injection hrt with hrt
        rw [← hrt] at h
        simp at h
      | valueExn v =>
        injection hrt with hrt
        rw [← hrt] at h
        simp at h
    | ok p1 =>
      obtain ⟨r1, st1⟩ := p1
      simp only [e1] at hrt
      cases e2 : Api.step2_post_picker_status env st1 with
      | error ex =>
        simp only [e2] at hrt
        cases ex with
        | uncaught u => exact Except.noConfusion hrt
        | requestExn =>
          injection hrt with hrt
          rw [← hrt] at h
          simp at h
        | valueExn v =>
          injection hrt with hrt
          rw [← hrt] at h
          simp at h
      | ok p2 =>
        obtain ⟨r2, st2⟩ := p2
        simp only [e2] at hrt
        cases e3 : Api.step3_load_crossword env st2 with
        | error ex =>
          simp only [e3] at hrt
          cases ex with
          | uncaught u => exact Except.noConfusion hrt
          | requestExn =>
            injection hrt with hrt
            rw [← hrt] at h
            simp at h
          | valueExn v =>
            injection hrt with hrt
            rw [← hrt] at h
            simp at h
        | ok p3 =>
          obtain ⟨r3, st3⟩ := p3
          simp only [e3] at hrt
          cases e4 : Api.step4_post_plays env st3 with
          | error ex =>
            simp only [e4] at hrt
            cases ex with
            | uncaught u => exact Except.noConfusion hrt
            | requestExn =>
              injection hrt with hrt
              rw [← hrt] at h
              simp at h
            | valueExn v =>
              injection hrt with hrt
              rw [← hrt] at h
              simp at h
          | ok p4 =>
            obtain ⟨r4, st4⟩ := p4
            simp only [e4] at hrt
            injection hrt with hrt
            obtain ⟨hit, hsucc4⟩ := step4_ok_iterations env st3 r4 st4 e4
            rw [← hrt] at hrt0
            refine ⟨r1, r2, r3, r4, st4, by rw [← hrt], hit, ?_⟩
            have hres : Api.flowResultD env =
                ⟨some r1, some r2, some r3, some r4, true, none⟩ := by
              unfold Api.flowResultD Api.run_sequential_flow
              rw [hrt0]
              simp [Except.map]
            rw [hres]
            rfl

/-- C7: for rps ≥ 1 and duration ≥ 1, the wave scheduler runs exactly
`duration` waves of exactly `rps` sessions each (`rps * duration`
total); each wave's statistics entry aggregates only that wave's
sessions (locality over the wave's own environments); its success count
is the number of succeeding sessions, failures the complement, the
latency list the per-session totals of the succeeding sessions, and the
min/max/avg keys exist iff the wave had at least one success; a session
succeeds only when all four steps completed, carrying exactly ten play
iterations, with its total latency the sum of the step-1..3 latencies
plus the ten iteration latencies. -/
theorem claim_C7 (r d : Nat) (sessions : Nat → Nat → Api.FlowEnv) (wall : Nat → ℚ)
    (hr : 1 ≤ r) (hd : 1 ≤ d) :
    (Api.run_wave_execution r d sessions wall).waves.length = d ∧
    (Api.run_wave_execution r d sessions wall).results.length = r * d ∧
    (Api.run_wave_execution r d sessions wall).total_threads = r * d ∧
    (∀ w, w < d →
      (Api.run_wave_execution r d sessions wall).waves[w]? =
        some (Api.runOneWave sessions wall r w).1) ∧
    (∀ w,
      (Api.runOneWave sessions wall r w).1.wave_number = w + 1 ∧
      (Api.runOneWave sessions wall r w).1.threads = r ∧
      (Api.runOneWave sessions wall r w).1.success =
        ((List.range r).map (fun t => sessions w t)).countP Api.flowSucceeded ∧
      (Api.runOneWave sessions wall r w).1.failed =
        r - (Api.runOneWave sessions wall r w).1.success ∧
      (Api.runOneWave sessions wall r w).1.latencies =
        ((List.range r).filter (fun t => Api.flowSucceeded (sessions w t))).map
          (fun t => Api.sessionTotalLatency (Api.flowResultD (sessions w t))) ∧
      ((Api.runOneWave sessions wall r w).1.min?.isSome = true ↔
        0 < (Api.runOneWave sessions wall r w).1.success) ∧
      ((Api.runOneWave sessions wall r w).1.max?.isSome = true ↔
        0 < (Api.runOneWave sessions wall r w).1.success) ∧
      ((Api.runOneWave sessions wall r w).1.avg?.isSome = true ↔
        0 < (Api.runOneWave sessions wall r w).1.success)) ∧
    (∀ w (sessions2 : Nat → Nat → Api.FlowEnv),
      (∀ t, t < r → sessions2 w t = sessions w t) →
      (Api.runOneWave sessions2 wall r w).1 = (Api.runOneWave sessions wall r w).1) ∧
    (∀ env : Api.FlowEnv, Api.flowSucceeded env = true →
      ∃ r1 r2 r3 r4 st4,
        Api.run_sequential_flow_traced env =
          .ok (⟨some r1, some r2, some r3, some r4, true, none⟩, some st4) ∧
        r4.iterations.length = 10 ∧
        Api.sessionTotalLatency (Api.flowResultD env) =
          r1.latency_ms + r2.latency_ms + r3.latency_ms +
            ((r4.iterations.map (fun (it : Api.IterRes) => it.latency_ms)).sum)) := by
  refine ⟨?_, ?_, rfl, ?_, ?_, ?_, flowSucceeded_inv⟩
  · simp [Api.run_wave_execution]
  · simp only [Api.run_wave_execution, List.length_flatten, List.map_map]
    have h1 : (List.range d).map (List.length ∘ Prod.snd ∘ Api.runOneWave sessions wall r) =
        (List.range d).map (fun _ => r) :=
      List.map_congr_left (fun w hw => by
        simp [Function.comp, Api.runOneWave])
    rw [h1, sum_map_constNat]
  · intro w hw
    simp [Api.run_wave_execution, List.getElem?_range hw]
  · intro w
    refine ⟨rfl, ?_, ?_, ?_, ?_, ?_, ?_, ?_⟩
    · simp [Api.runOneWave]
    · simp only [Api.runOneWave, ← List.countP_eq_length_filter, List.countP_map]
      exact List.countP_congr (fun t ht => by
        simp only [Function.comp_apply]
        rw [itemSuccess_run w t (sessions w t)])
    · simp only [Api.runOneWave, List.length_map, List.length_range]
    · simp only [Api.runOneWave]
      rw [List.filter_map, List.map_map]
      have hfil : (List.range r).filter (Api.itemSuccess ∘ (fun t =>
          match Api.run_sequential_flow (sessions w t) with
          | .ok r2 => Api.WaveItem.res (w + 1) t r2
          | .error e => Api.WaveItem.crashed (w + 1) t e)) =
          (List.range r).filter (fun t => Api.flowSucceeded (sessions w t)) :=
        List.filter_congr (fun t ht => by
          simp only [Function.comp_apply]
          exact itemSuccess_run w t (sessions w t))
      rw [hfil]
      exact List.map_congr_left (fun t ht => by
        rw [List.mem_filter] at ht
        simp only [Function.comp_apply]
        exact itemLatency_run w t (sessions w t) ht.2)
    · simp only [Api.runOneWave]
      rw [pyMin_isSome_iff, List.length_map]
    · simp only [Api.runOneWave]
      rw [pyMax_isSome_iff, List.length_map]
    · simp only [Api.runOneWave]
      rw [avg_isSome_iff, List.length_map]
  · intro w sessions2 hag
    have hmap : (List.range r).map (fun t =>
        match Api.run_sequential_flow (sessions2 w t) with
        | .ok r2 => Api.WaveItem.res (w + 1) t r2
        | .error e => Api.WaveItem.crashed (w + 1) t e) =
        (List.range r).map (fun t =>
        match Api.run_sequential_flow (sessions w t) with
        | .ok r2 => Api.WaveItem.res (w + 1) t r2
        | .error e => Api.WaveItem.crashed (w + 1) t e) :=
      List.map_congr_left (fun t ht => by rw [hag t (List.mem_range.mp ht)])
    simp only [Api.runOneWave]
    rw [hmap]

/-- C7, witness: the rps=3, duration=2 schedule of the spec example. -/
theorem claim_C7_witness :
    (Api.run_wave_execution 3 2 (fun _ _ => Fx.envOK) (fun _ => 0)).waves.length = 2 ∧
    (Api.run_wave_execution 3 2 (fun _ _ => Fx.envOK) (fun _ => 0)).results.length = 3 * 2 :=
  ⟨(claim_C7 3 2 (fun _ _ => Fx.envOK) (fun _ => 0) (by decide) (by decide)).1,
   (claim_C7 3 2 (fun _ _ => Fx.envOK) (fun _ => 0) (by decide) (by decide)).2.1⟩
